import Mathlib

/-!
# HX711 driver (`components/hx711/hx711.c`): shallow embedding

The driver talks to the outside world through GPIO and timing primitives of
the platform SDK.  The embedding makes that world explicit:

* `Env` is the oracle: what the k-th call of each primitive returns.
* `World` counts the calls made so far and records every call, in order,
  in `trace`.

Machine integers are natural numbers with explicit reduction modulo `2^32`.
Pointers that may be `NULL` are `Option`s.  The poll loop of `hx711_wait`
need not terminate, so it takes fuel (one unit per evaluation of the loop
condition).
-/

namespace HX711

/-! ## Platform types and constants -/

/-- Error codes are plain integers, as `esp_err_t` is in the SDK. -/
abbrev esp_err_t := Int

/-- Success code of the SDK (`esp_err.h`); the `CHECK` macro compares against it. -/
def ESP_OK : esp_err_t := 0

/-- Invalid-argument code of the SDK (`esp_err.h`). -/
def ESP_ERR_INVALID_ARG : esp_err_t := 0x102

/-- Timeout code of the SDK (`esp_err.h`). -/
def ESP_ERR_TIMEOUT : esp_err_t := 0x107

/-- Pin direction argument of `gpio_set_direction`. -/
inductive gpio_mode_t
  | GPIO_MODE_INPUT
  | GPIO_MODE_OUTPUT
  deriving DecidableEq

/-- Modelled from the spec: the enumeration `hx711_gain_t` is declared in the
header `hx711.h`, which is not part of the sources at hand.  Its values are the
three selections in ascending pulse count, numbered from 0: channel A x128. -/
def HX711_GAIN_A_128 : Nat := 0

/-- Modelled from the spec: second enumerator of `hx711_gain_t`, channel B x32. -/
def HX711_GAIN_B_32 : Nat := 1

/-- Modelled from the spec: third enumerator of `hx711_gain_t`, channel A x64. -/
def HX711_GAIN_A_64 : Nat := 2

/-- Modelled from the spec: the device handle `hx711_t` of `hx711.h`, with the
three fields the driver dereferences: data-out pin, clock pin, gain. -/
structure hx711_t where
  dout : Nat
  pd_sck : Nat
  gain : Nat
  deriving DecidableEq

/-! ## The outside world -/

/-- One call of a platform primitive, with its arguments (and, for reads, the
value obtained). -/
inductive Event
  | set_direction (pin : Nat) (mode : gpio_mode_t)
  | set_level (pin : Nat) (level : Nat)
  | get_level (pin : Nat) (level : Nat)
  | delay_us (us : Nat)
  | task_delay (ticks : Nat)
  | gettimeofday (sec usec : Nat)
  | enter_critical
  | exit_critical
  deriving DecidableEq

/-- The oracle: results of the k-th call of each primitive. -/
structure Env where
  /-- value returned by the k-th `gpio_get_level` -/
  level : Nat → Nat
  /-- pair `(tv_sec, tv_usec)` stored by the k-th `gettimeofday` -/
  timeofday : Nat → Nat × Nat
  /-- status returned by the k-th `gpio_set_direction` -/
  set_direction_result : Nat → esp_err_t
  /-- status returned by the k-th `gpio_set_level` -/
  set_level_result : Nat → esp_err_t

/-- Calls made so far: a counter per oracle stream and the full record. -/
structure World where
  reads : Nat
  clocks : Nat
  dirs : Nat
  sets : Nat
  trace : List Event
  deriving DecidableEq

/-- Result of a call that may loop or dereference a null handle. -/
inductive Outcome (α : Type)
  | ret (a : α) (w : World)
  | null_deref (w : World)
  | out_of_fuel
  deriving DecidableEq

/-- Platform primitive `gpio_set_direction`: recorded, status from the oracle. -/
def gpio_set_direction (env : Env) (pin : Nat) (mode : gpio_mode_t) (w : World) :
    esp_err_t × World :=
  (env.set_direction_result w.dirs,
    { w with dirs := w.dirs + 1, trace := w.trace ++ [Event.set_direction pin mode] })

/-- Platform primitive `gpio_set_level`: recorded, status from the oracle. -/
def gpio_set_level (env : Env) (pin level : Nat) (w : World) : esp_err_t × World :=
  (env.set_level_result w.sets,
    { w with sets := w.sets + 1, trace := w.trace ++ [Event.set_level pin level] })

/-- Platform primitive `gpio_get_level`: recorded, level from the oracle. -/
def gpio_get_level (env : Env) (pin : Nat) (w : World) : Nat × World :=
  (env.level w.reads,
    { w with reads := w.reads + 1, trace := w.trace ++ [Event.get_level pin (env.level w.reads)] })

/-- Platform primitive `ets_delay_us`: a busy wait, recorded. -/
def ets_delay_us (us : Nat) (w : World) : World :=
  { w with trace := w.trace ++ [Event.delay_us us] }

/-- Platform primitive `vTaskDelay`: a yield of `ticks` scheduler ticks, recorded. -/
def vTaskDelay (ticks : Nat) (w : World) : World :=
  { w with trace := w.trace ++ [Event.task_delay ticks] }

/-- Entry of the critical section, recorded. -/
def portENTER_CRITICAL (w : World) : World :=
  { w with trace := w.trace ++ [Event.enter_critical] }

/-- Exit of the critical section, recorded. -/
def portEXIT_CRITICAL (w : World) : World :=
  { w with trace := w.trace ++ [Event.exit_critical] }

/-! ## The driver -/

/-- Millisecond value computed from one `gettimeofday` reading, truncated to
`uint32_t`. -/
def time_ms (sec usec : Nat) : Nat := (sec * 1000 + usec / 1000) % 2 ^ 32

/-- Source function `get_time_ms`: one `gettimeofday`, then `tv_sec * 1000 + tv_usec / 1000`
returned as `uint32_t`. -/
def get_time_ms (env : Env) (w : World) : Nat × World :=
  let t := env.timeofday w.clocks
  (time_ms t.1 t.2,
    { w with clocks := w.clocks + 1, trace := w.trace ++ [Event.gettimeofday t.1 t.2] })

/-- Subtraction of two `uint32_t` values. -/
def u32_sub (a b : Nat) : Nat := (a % 2 ^ 32 + 2 ^ 32 - b % 2 ^ 32) % 2 ^ 32

/-- Body of the data loop of `read_raw` at index `i`: clock high, 1 us, sample
and OR into bit `23 - i`, clock low, 1 us.  The status of `gpio_set_level` is
dropped, as in the source. -/
def read_raw_data_step (env : Env) (dout pd_sck : Nat) (s : Nat × World) (i : Nat) :
    Nat × World :=
  let w1 := (gpio_set_level env pd_sck 1 s.2).2
  let w2 := ets_delay_us 1 w1
  let r := gpio_get_level env dout w2
  let data := s.1 ||| (r.1 <<< (23 - i)) % 2 ^ 32
  let w3 := (gpio_set_level env pd_sck 0 r.2).2
  (data, ets_delay_us 1 w3)

/-- Body of the gain loop of `read_raw`: one clock pulse, nothing sampled. -/
def read_raw_gain_step (env : Env) (pd_sck : Nat) (w : World) (_i : Nat) : World :=
  let w1 := (gpio_set_level env pd_sck 1 w).2
  let w2 := ets_delay_us 1 w1
  let w3 := (gpio_set_level env pd_sck 0 w2).2
  ets_delay_us 1 w3

/-- Source function `read_raw`: 24 data iterations `i = 0 .. 23`, then the iterations
`i = 0 .. gain` of the gain loop, inside a critical section.  (The gain loop
`i <= gain` is taken with `gain` below the largest `size_t`, where it runs
`gain + 1` times.) -/
def read_raw (env : Env) (dout pd_sck gain : Nat) (w : World) : Nat × World :=
  let w0 := portENTER_CRITICAL w
  let s := (List.range 24).foldl (read_raw_data_step env dout pd_sck) (0, w0)
  let w1 := (List.range (gain + 1)).foldl (read_raw_gain_step env pd_sck) s.2
  (s.1, portEXIT_CRITICAL w1)

/-- The poll loop of `hx711_wait`.  Each unit of fuel pays for one evaluation
of the loop condition `get_time_ms() - started < timeout_ms`. -/
def hx711_wait_loop (env : Env) (dev : Option hx711_t) (started timeout_ms : Nat) :
    Nat → World → Outcome esp_err_t
  | 0, _ => Outcome.out_of_fuel
  | fuel + 1, w =>
    let t := get_time_ms env w
    if u32_sub t.1 started < timeout_ms then
      match dev with
      | none => Outcome.null_deref t.2
      | some d =>
        let r := gpio_get_level env d.dout t.2
        if r.1 = 0 then Outcome.ret ESP_OK r.2
        else hx711_wait_loop env dev started timeout_ms fuel (vTaskDelay 1 r.2)
    else Outcome.ret ESP_ERR_TIMEOUT t.2

/-- Source function `hx711_wait`: sample the clock, then poll.  There is no argument check. -/
def hx711_wait (fuel : Nat) (env : Env) (dev : Option hx711_t) (timeout_ms : Nat)
    (w : World) : Outcome esp_err_t :=
  let t := get_time_ms env w
  hx711_wait_loop env dev t.1 timeout_ms fuel t.2

/-- Source function `hx711_set_gain`: argument checks, wait up to 200 ms, one shift with the
new gain whose sample is dropped, then the store into the handle.  Returns the
status and the handle after the call. -/
def hx711_set_gain (fuel : Nat) (env : Env) (dev : Option hx711_t) (gain : Nat)
    (w : World) : Outcome (esp_err_t × Option hx711_t) :=
  match dev with
  | none => Outcome.ret (ESP_ERR_INVALID_ARG, none) w
  | some d =>
    if ¬ gain ≤ HX711_GAIN_A_64 then Outcome.ret (ESP_ERR_INVALID_ARG, some d) w
    else
      match hx711_wait fuel env (some d) 200 w with
      | Outcome.ret e w1 =>
        if e ≠ ESP_OK then Outcome.ret (e, some d) w1
        else
          let r := read_raw env d.dout d.pd_sck gain w1
          Outcome.ret (ESP_OK, some { d with gain := gain }) r.2
      | Outcome.null_deref w1 => Outcome.null_deref w1
      | Outcome.out_of_fuel => Outcome.out_of_fuel

/-- Source function `hx711_power_down`: drive the clock pin to `down`, then one tick of
delay.  Returns the status, the handle after the call and the world. -/
def hx711_power_down (env : Env) (dev : Option hx711_t) (down : Bool) (w : World) :
    esp_err_t × Option hx711_t × World :=
  match dev with
  | none => (ESP_ERR_INVALID_ARG, none, w)
  | some d =>
    let r := gpio_set_level env d.pd_sck (if down then 1 else 0) w
    if r.1 ≠ ESP_OK then (r.1, some d, r.2)
    else (ESP_OK, some d, vTaskDelay 1 r.2)

/-- Source function `hx711_init`: data pin to input, clock pin to output, power up, then
`hx711_set_gain` with the gain stored in the handle. -/
def hx711_init (fuel : Nat) (env : Env) (dev : Option hx711_t) (w : World) :
    Outcome (esp_err_t × Option hx711_t) :=
  match dev with
  | none => Outcome.ret (ESP_ERR_INVALID_ARG, none) w
  | some d =>
    let r1 := gpio_set_direction env d.dout gpio_mode_t.GPIO_MODE_INPUT w
    if r1.1 ≠ ESP_OK then Outcome.ret (r1.1, some d) r1.2
    else
      let r2 := gpio_set_direction env d.pd_sck gpio_mode_t.GPIO_MODE_OUTPUT r1.2
      if r2.1 ≠ ESP_OK then Outcome.ret (r2.1, some d) r2.2
      else
        let r3 := hx711_power_down env (some d) false r2.2
        if r3.1 ≠ ESP_OK then Outcome.ret (r3.1, some d) r3.2.2
        else hx711_set_gain fuel env (some d) d.gain r3.2.2

/-- Source function `hx711_is_ready`: `*ready = !gpio_get_level(dev->dout)`.  The output cell
is `none` for a null pointer, otherwise its content.  Returns the status, the
handle after the call, the output cell after the call, and the world. -/
def hx711_is_ready (env : Env) (dev : Option hx711_t) (ready : Option Bool) (w : World) :
    esp_err_t × Option hx711_t × Option Bool × World :=
  match dev with
  | none => (ESP_ERR_INVALID_ARG, none, ready, w)
  | some d =>
    match ready with
    | none => (ESP_ERR_INVALID_ARG, some d, none, w)
    | some _ =>
      let r := gpio_get_level env d.dout w
      (ESP_OK, some d, some (decide (r.1 = 0)), r.2)

/-- Conversion `(int32_t)raw` of a `uint32_t`. -/
def to_int32 (u : Nat) : Int :=
  if u % 2 ^ 32 < 2 ^ 31 then ((u % 2 ^ 32 : Nat) : Int) else ((u % 2 ^ 32 : Nat) : Int) - 2 ^ 32

/-- The decoding lines of `hx711_read_data`:
`if (raw & 0x800000) raw |= 0xff000000; *data = (int32_t)raw;`. -/
def sign_extend (raw : Nat) : Int :=
  to_int32 (if raw &&& 0x800000 ≠ 0 then raw ||| 0xff000000 else raw)

/-- Source function `hx711_read_data`: argument checks, one shift with the stored gain, sign
extension into the output cell.  Returns the status, the handle after the
call, the output cell after the call, and the world. -/
def hx711_read_data (env : Env) (dev : Option hx711_t) (data : Option Int) (w : World) :
    esp_err_t × Option hx711_t × Option Int × World :=
  match dev with
  | none => (ESP_ERR_INVALID_ARG, none, data, w)
  | some d =>
    match data with
    | none => (ESP_ERR_INVALID_ARG, some d, none, w)
    | some _ =>
      let r := read_raw env d.dout d.pd_sck d.gain w
      (ESP_OK, some d, some (sign_extend r.1), r.2)

/-! ## Reference notions used to state the properties -/

/-- Re-encoding of a signed result as the spec words it: the low 24 bits of
its 32-bit two's-complement representation. -/
def reencode24 (x : Int) : Nat := (x % 2 ^ 32).toNat &&& 0xFFFFFF

/-- Events of one data pulse on which level `lvl` was sampled. -/
def data_pulse_events (dout pd_sck lvl : Nat) : List Event :=
  [Event.set_level pd_sck 1, Event.delay_us 1, Event.get_level dout lvl,
   Event.set_level pd_sck 0, Event.delay_us 1]

/-- Events of one trailing (gain) pulse. -/
def gain_pulse_events (pd_sck : Nat) : List Event :=
  [Event.set_level pd_sck 1, Event.delay_us 1, Event.set_level pd_sck 0, Event.delay_us 1]

/-- Events of the first `n` data pulses when `reads0` samples were taken before. -/
def data_events (env : Env) (dout pd_sck reads0 n : Nat) : List Event :=
  (List.range n).flatMap (fun i => data_pulse_events dout pd_sck (env.level (reads0 + i)))

/-- Events of `n` trailing pulses. -/
def gain_events (pd_sck n : Nat) : List Event :=
  (List.replicate n (gain_pulse_events pd_sck)).flatten

/-- Events of one whole shift with `n` trailing pulses. -/
def shift_events (env : Env) (dout pd_sck reads0 n : Nat) : List Event :=
  [Event.enter_critical] ++ data_events env dout pd_sck reads0 24 ++ gain_events pd_sck n
    ++ [Event.exit_critical]

/-- Number of times the clock pin `pin` is driven high in `evs`. -/
def clock_high_count (pin : Nat) (evs : List Event) : Nat :=
  evs.count (Event.set_level pin 1)

/-- Is the event a sample of an input pin? -/
def Event.is_sample : Event → Bool
  | Event.get_level _ _ => true
  | _ => false

/-- Number of input samples in `evs`. -/
def sample_count (evs : List Event) : Nat := evs.countP Event.is_sample

/-- The value of `n` levels `b 0, b 1, ..` read most significant first into
bits `23, 22, ..`. -/
def msb_first (b : Nat → Nat) (n : Nat) : Nat := ∑ i in Finset.range n, b i * 2 ^ (23 - i)

/-- The world after a shift: 24 samples, `2 * (24 + n)` clock writes. -/
def after_shift (env : Env) (dout pd_sck n : Nat) (w : World) : World :=
  { w with reads := w.reads + 24, sets := w.sets + 2 * (24 + n),
           trace := w.trace ++ shift_events env dout pd_sck w.reads n }

/-- Events appended to the trace between world `w` and a later world `w2`. -/
def new_events (w w2 : World) : List Event := w2.trace.drop w.trace.length

/-- Does the event read the clock or yield to the scheduler? -/
def Event.is_wait : Event → Bool
  | Event.gettimeofday _ _ => true
  | Event.task_delay _ => true
  | _ => false

/-- Does the event write an output pin? -/
def Event.is_write : Event → Bool
  | Event.set_level _ _ => true
  | _ => false

/-- Is the event one of the three things the poll loop does: read the clock,
sample the data line, yield? -/
def Event.is_poll : Event → Bool
  | Event.gettimeofday _ _ => true
  | Event.get_level _ _ => true
  | Event.task_delay _ => true
  | _ => false

/-- The comparison the spec warns against, on `uint32_t` values: expiry decided
by `now > started + timeout`. -/
def naive_expired (now started timeout_ms : Nat) : Bool :=
  decide (now % 2 ^ 32 > (started + timeout_ms) % 2 ^ 32)

/-- The levels written to pin `pin` in `evs`, in order. -/
def clock_levels (pin : Nat) (evs : List Event) : List Nat :=
  evs.filterMap (fun e =>
    match e with
    | Event.set_level p l => if p = pin then some l else none
    | _ => none)

/-- Scan of `evs` that checks every input sample against the writes to `pin`:
`lvl` is the level written last, `pending` tells whether a sample was taken
since that write.  A sample needs `lvl = 1`; the write that follows a sample
must be 0; and no sample may be left without a following write. -/
def samples_in_high_phase (pin : Nat) : Nat → Bool → List Event → Bool
  | _, pending, [] => !pending
  | lvl, pending, Event.set_level p l :: es =>
    if p = pin then (!pending || decide (l = 0)) && samples_in_high_phase pin l false es
    else samples_in_high_phase pin lvl pending es
  | lvl, _, Event.get_level _ _ :: es => decide (lvl = 1) && samples_in_high_phase pin lvl true es
  | lvl, pending, Event.set_direction _ _ :: es => samples_in_high_phase pin lvl pending es
  | lvl, pending, Event.delay_us _ :: es => samples_in_high_phase pin lvl pending es
  | lvl, pending, Event.task_delay _ :: es => samples_in_high_phase pin lvl pending es
  | lvl, pending, Event.gettimeofday _ _ :: es => samples_in_high_phase pin lvl pending es
  | lvl, pending, Event.enter_critical :: es => samples_in_high_phase pin lvl pending es
  | lvl, pending, Event.exit_critical :: es => samples_in_high_phase pin lvl pending es

/-- Events of `n` rounds of the poll loop that found the data line high, the
first of them reading clock entry `c` and level entry `r` of the oracle: clock
reading, sample, one tick of yield. -/
def poll_events (env : Env) (dout : Nat) : Nat → Nat → Nat → List Event
  | _, _, 0 => []
  | c, r, n + 1 =>
    [Event.gettimeofday (env.timeofday c).1 (env.timeofday c).2,
     Event.get_level dout (env.level r), Event.task_delay 1]
      ++ poll_events env dout (c + 1) (r + 1) n

/-- Events of the pin set-up of `hx711_init` when it runs to the end. -/
def init_events (d : hx711_t) : List Event :=
  [Event.set_direction d.dout gpio_mode_t.GPIO_MODE_INPUT,
   Event.set_direction d.pd_sck gpio_mode_t.GPIO_MODE_OUTPUT,
   Event.set_level d.pd_sck 0, Event.task_delay 1]

/-! ## Concrete inputs for the examples -/

/-- A world in which nothing has happened yet. -/
def world0 : World := { reads := 0, clocks := 0, dirs := 0, sets := 0, trace := [] }

/-- A handle on pins 4 (data) and 5 (clock) with gain channel A x128. -/
def dev0 : hx711_t := { dout := 4, pd_sck := 5, gain := HX711_GAIN_A_128 }

/-- An environment whose data line follows `level`, whose clock advances by
`step` ms per reading from 0, and whose pin writes all succeed. -/
def env_of (level : Nat → Nat) (step : Nat) : Env :=
  { level := level
    timeofday := fun k => ((k * step) / 1000, ((k * step) % 1000) * 1000)
    set_direction_result := fun _ => ESP_OK
    set_level_result := fun _ => ESP_OK }

/-- An environment with the data line low and the clock advancing 1 ms per
reading, whose pin calls answer `dirs` and `sets`. -/
def env_status (dirs sets : Nat → esp_err_t) : Env :=
  { level := fun _ => 0
    timeofday := fun k => (k / 1000, (k % 1000) * 1000)
    set_direction_result := dirs
    set_level_result := sets }

/-! ## Sign extension (C1, C5) -/

theorem and_sign_bit (r : Nat) (h : r < 2 ^ 24) :
    r &&& 0x800000 = if r < 2 ^ 23 then 0 else 2 ^ 23 := by
  apply Nat.eq_of_testBit_eq
  intro i
  rw [show (0x800000 : Nat) = 2 ^ 23 by norm_num, Nat.testBit_and, Nat.testBit_two_pow]
  by_cases hi : 23 = i
  · subst hi
    by_cases hlt : r < 2 ^ 23
    · rw [if_pos hlt, Nat.testBit_lt_two_pow hlt]
      rfl
    · rw [if_neg hlt, Nat.testBit_two_pow_self, Nat.testBit_to_div_mod]
      have h1 : r / 2 ^ 23 % 2 = 1 := by omega
      rw [h1]
      rfl
  · have hf : decide (23 = i) = false := decide_eq_false hi
    rw [hf, Bool.and_false]
    by_cases hlt : r < 2 ^ 23
    · rw [if_pos hlt, Nat.zero_testBit]
    · rw [if_neg hlt, Nat.testBit_two_pow_of_ne hi]

theorem or_high_byte (r : Nat) (h : r < 2 ^ 24) : r ||| 0xff000000 = 0xff000000 + r := by
  have := Nat.mul_add_lt_is_or h 0xff
  rw [Nat.or_comm]
  norm_num at this ⊢
  exact this.symm

theorem sign_extend_eq (r : Nat) (h : r < 2 ^ 24) :
    sign_extend r = if r < 2 ^ 23 then (r : Int) else (r : Int) - 2 ^ 24 := by
  unfold sign_extend
  rw [and_sign_bit r h]
  by_cases hlt : r < 2 ^ 23
  · have hin : (if (if r < 2 ^ 23 then 0 else 2 ^ 23) ≠ 0 then r ||| 0xff000000 else r) = r := by
      rw [if_pos hlt]; simp
    rw [hin, if_pos hlt]
    unfold to_int32
    have : r % 2 ^ 32 = r := Nat.mod_eq_of_lt (by omega)
    rw [this, if_pos (by omega)]
  · have hin : (if (if r < 2 ^ 23 then 0 else 2 ^ 23) ≠ 0 then r ||| 0xff000000 else r)
        = 0xff000000 + r := by
      rw [if_neg hlt, or_high_byte r h]; simp
    rw [hin, if_neg hlt]
    unfold to_int32
    have : (0xff000000 + r) % 2 ^ 32 = 0xff000000 + r := Nat.mod_eq_of_lt (by omega)
    rw [this, if_neg (by omega)]
    push_cast
    ring

theorem reencode24_sign_extend (r : Nat) (h : r < 2 ^ 24) : reencode24 (sign_extend r) = r := by
  rw [sign_extend_eq r h]
  unfold reencode24
  rw [show (0xFFFFFF : Nat) = 2 ^ 24 - 1 by norm_num, Nat.and_pow_two_sub_one_eq_mod]
  by_cases hlt : r < 2 ^ 23
  · rw [if_pos hlt]
    have : ((r : Int) % 2 ^ 32).toNat = r := by omega
    rw [this]
    exact Nat.mod_eq_of_lt h
  · rw [if_neg hlt]
    have : (((r : Int) - 2 ^ 24) % 2 ^ 32).toNat = 0xff000000 + r := by omega
    rw [this]
    omega

/-- C1: the decoding lines of `hx711_read_data` sign-extend every raw 24-bit
value `r`: the signed result is `r` below `2^23` and `r - 2^24` from `2^23` on,
it lies in the `int32_t` range, and it is what a read stores in the output
cell; `0x7FFFFF`, `0x800000` and `0xFFFFFF` decode to 8388607, -8388608, -1. -/
theorem sign_extension_total_correct (r : Nat) (h : r < 2 ^ 24) :
    sign_extend r = (if r < 2 ^ 23 then (r : Int) else (r : Int) - 2 ^ 24)
    ∧ -2 ^ 31 ≤ sign_extend r ∧ sign_extend r < 2 ^ 31
    ∧ (∀ (env : Env) (d : hx711_t) (old : Int) (w : World),
        (read_raw env d.dout d.pd_sck d.gain w).1 = r →
        (hx711_read_data env (some d) (some old) w).2.2.1
          = some (if r < 2 ^ 23 then (r : Int) else (r : Int) - 2 ^ 24))
    ∧ sign_extend 0x7FFFFF = 8388607
    ∧ sign_extend 0x800000 = -8388608
    ∧ sign_extend 0xFFFFFF = -1 := by
  have hs := sign_extend_eq r h
  refine ⟨hs, ?_, ?_, ?_, ?_, ?_, ?_⟩
  · rw [hs]; split <;> omega
  · rw [hs]; split <;> omega
  · intro env d old w hr
    simp only [hx711_read_data]
    rw [hr, hs]
  · rw [sign_extend_eq _ (by norm_num)]; norm_num
  · rw [sign_extend_eq _ (by norm_num)]; norm_num
  · rw [sign_extend_eq _ (by norm_num)]; norm_num

/-- Witness for C1 at the most negative raw value. -/
theorem sign_extension_total_correct_witness :
    (0x800000 : Nat) < 2 ^ 24 ∧ sign_extend 0x800000 = -8388608 :=
  ⟨by norm_num, (sign_extension_total_correct 0x800000 (by norm_num)).2.2.2.2.2.1⟩

/-- C5: taking the low 24 bits of the 32-bit two's-complement form of the
decoded value gives back the raw value, for every raw value below `2^24`;
hence decoding is injective there. -/
theorem decode_roundtrip (r : Nat) (h : r < 2 ^ 24) :
    reencode24 (sign_extend r) = r
    ∧ ∀ r2 : Nat, r2 < 2 ^ 24 → sign_extend r = sign_extend r2 → r = r2 := by
  refine ⟨reencode24_sign_extend r h, ?_⟩
  intro r2 h2 heq
  rw [← reencode24_sign_extend r h, ← reencode24_sign_extend r2 h2, heq]

/-- Witness for C5 at raw `0xFFFFFF`, whose decoded value is -1. -/
theorem decode_roundtrip_witness :
    (0xFFFFFF : Nat) < 2 ^ 24 ∧ reencode24 (sign_extend 0xFFFFFF) = 0xFFFFFF :=
  ⟨by norm_num, (decode_roundtrip 0xFFFFFF (by norm_num)).1⟩

/-! ## The protocol engine -/

theorem data_events_succ (env : Env) (dout pd_sck reads0 n : Nat) :
    data_events env dout pd_sck reads0 (n + 1)
      = data_events env dout pd_sck reads0 n
        ++ data_pulse_events dout pd_sck (env.level (reads0 + n)) := by
  simp [data_events, List.range_succ, List.flatMap_append]

theorem gain_events_succ (pd_sck n : Nat) :
    gain_events pd_sck (n + 1) = gain_events pd_sck n ++ gain_pulse_events pd_sck := by
  simp [gain_events, List.replicate_succ', List.flatten_append]

/-- The world after the first `n` iterations of the data loop. -/
theorem data_loop_world (env : Env) (dout pd_sck : Nat) (d0 : Nat) (w0 : World) (n : Nat) :
    ((List.range n).foldl (read_raw_data_step env dout pd_sck) (d0, w0)).2
      = { w0 with reads := w0.reads + n, sets := w0.sets + 2 * n,
                  trace := w0.trace ++ data_events env dout pd_sck w0.reads n } := by
  induction n with
  | zero => simp [data_events]
  | succ n ih =>
    rw [List.range_succ, List.foldl_append, List.foldl_cons, List.foldl_nil]
    simp only [read_raw_data_step, gpio_set_level, ets_delay_us, gpio_get_level]
    rw [ih, data_events_succ]
    simp [data_pulse_events, Nat.mul_succ, Nat.add_assoc]

/-- The world after `n` iterations of the gain loop. -/
theorem gain_loop_world (env : Env) (pd_sck : Nat) (w0 : World) (n : Nat) :
    (List.range n).foldl (read_raw_gain_step env pd_sck) w0
      = { w0 with sets := w0.sets + 2 * n,
                  trace := w0.trace ++ gain_events pd_sck n } := by
  induction n with
  | zero => simp [gain_events]
  | succ n ih =>
    rw [List.range_succ, List.foldl_append, List.foldl_cons, List.foldl_nil, ih,
      gain_events_succ]
    simp [read_raw_gain_step, gpio_set_level, ets_delay_us, gain_pulse_events, Nat.mul_succ,
      Nat.add_assoc]

/-- The effect of one shift on the world, whatever the levels sampled. -/
theorem read_raw_world (env : Env) (dout pd_sck gain : Nat) (w : World) :
    (read_raw env dout pd_sck gain w).2 = after_shift env dout pd_sck (gain + 1) w := by
  simp only [read_raw, portEXIT_CRITICAL, portENTER_CRITICAL]
  rw [gain_loop_world, data_loop_world]
  simp [after_shift, shift_events, Nat.mul_add, Nat.add_assoc]

theorem msb_first_dvd (b : Nat → Nat) (n : Nat) (hn : n ≤ 24) :
    2 ^ (24 - n) ∣ msb_first b n := by
  unfold msb_first
  apply Finset.dvd_sum
  intro i hi
  have hi2 : i < n := Finset.mem_range.mp hi
  exact Dvd.dvd.mul_left (pow_dvd_pow 2 (by omega)) _

theorem msb_first_lt (b : Nat → Nat) (n : Nat) (hn : n ≤ 24) (hb : ∀ i, i < n → b i ≤ 1) :
    msb_first b n + 2 ^ (24 - n) ≤ 2 ^ 24 := by
  induction n with
  | zero => simp [msb_first]
  | succ n ih =>
    have h1 := ih (by omega) (fun i hi => hb i (by omega))
    have h2 : b n ≤ 1 := hb n (by omega)
    have h3 : (2 : Nat) ^ (24 - n) = 2 * 2 ^ (23 - n) := by
      rw [show 24 - n = (23 - n) + 1 by omega, pow_succ]; ring
    have h4 : 24 - (n + 1) = 23 - n := by omega
    have h5 : b n * 2 ^ (23 - n) ≤ 2 ^ (23 - n) := by
      simpa using Nat.mul_le_mul_right (2 ^ (23 - n)) h2
    unfold msb_first at h1 ⊢
    rw [Finset.sum_range_succ, h4]
    omega

/-- OR-ing a 0/1 level into bit `23 - n` adds it: the bits below `24 - n` of
the accumulator are still clear. -/
theorem or_next_bit (b : Nat → Nat) (n : Nat) (hn : n < 24) (hb : ∀ i, i ≤ n → b i ≤ 1) :
    msb_first b n ||| (b n <<< (23 - n)) % 2 ^ 32 = msb_first b (n + 1) := by
  obtain ⟨a, ha⟩ := msb_first_dvd b n (by omega)
  have h2 : b n ≤ 1 := hb n (by omega)
  have hp : (2 : Nat) ^ (23 - n) < 2 ^ (24 - n) := Nat.pow_lt_pow_right (by norm_num) (by omega)
  have hp24 : (2 : Nat) ^ (24 - n) ≤ 2 ^ 24 := Nat.pow_le_pow_right (by norm_num) (by omega)
  have h5 : b n * 2 ^ (23 - n) ≤ 2 ^ (23 - n) := by
    simpa using Nat.mul_le_mul_right (2 ^ (23 - n)) h2
  have hlt : b n * 2 ^ (23 - n) < 2 ^ (24 - n) := by omega
  have hmod : (b n <<< (23 - n)) % 2 ^ 32 = b n * 2 ^ (23 - n) := by
    rw [Nat.shiftLeft_eq]
    exact Nat.mod_eq_of_lt (by omega)
  rw [hmod]
  have hsucc : msb_first b (n + 1) = msb_first b n + b n * 2 ^ (23 - n) := by
    unfold msb_first
    rw [Finset.sum_range_succ]
  rw [hsucc, ha]
  exact (Nat.mul_add_lt_is_or hlt a).symm

/-- The accumulator after the first `n` iterations of the data loop, when the
levels sampled are 0 or 1. -/
theorem data_loop_value (env : Env) (dout pd_sck : Nat) (w0 : World) (n : Nat) (hn : n ≤ 24)
    (hb : ∀ i, i < n → env.level (w0.reads + i) ≤ 1) :
    ((List.range n).foldl (read_raw_data_step env dout pd_sck) (0, w0)).1
      = msb_first (fun i => env.level (w0.reads + i)) n := by
  induction n with
  | zero => simp [msb_first]
  | succ n ih =>
    rw [List.range_succ, List.foldl_append, List.foldl_cons, List.foldl_nil]
    simp only [read_raw_data_step, gpio_set_level, ets_delay_us, gpio_get_level]
    rw [data_loop_world, ih (by omega) (fun i hi => hb i (by omega))]
    exact or_next_bit (fun i => env.level (w0.reads + i)) n (by omega)
      (fun i hi => hb i (by omega))

/-- The value returned by one shift, when the 24 levels sampled are 0 or 1. -/
theorem read_raw_value (env : Env) (dout pd_sck gain : Nat) (w : World)
    (hb : ∀ i, i < 24 → env.level (w.reads + i) ≤ 1) :
    (read_raw env dout pd_sck gain w).1 = msb_first (fun i => env.level (w.reads + i)) 24 := by
  simp only [read_raw, portENTER_CRITICAL]
  exact data_loop_value env dout pd_sck _ 24 (by omega) hb

theorem new_events_append (w w2 : World) (evs : List Event) (h : w2.trace = w.trace ++ evs) :
    new_events w w2 = evs := by
  simp [new_events, h]

theorem msb_first_succ_or (b : Nat → Nat) (n : Nat) (hn : n < 24) (hb : ∀ i, i ≤ n → b i ≤ 1) :
    msb_first b (n + 1) = msb_first b n ||| b n <<< (23 - n) := by
  have h2 : b n ≤ 1 := hb n (by omega)
  have h5 : b n * 2 ^ (23 - n) ≤ 2 ^ (23 - n) := by
    simpa using Nat.mul_le_mul_right (2 ^ (23 - n)) h2
  have hp : (2 : Nat) ^ (23 - n) ≤ 2 ^ 23 := Nat.pow_le_pow_right (by norm_num) (by omega)
  have hmod : (b n <<< (23 - n)) % 2 ^ 32 = b n <<< (23 - n) := by
    rw [Nat.shiftLeft_eq]
    exact Nat.mod_eq_of_lt (by omega)
  rw [← or_next_bit b n hn hb, hmod]

theorem testBit_le_one (x k : Nat) (hx : x ≤ 1) :
    x.testBit k = (decide (k = 0) && decide (x = 1)) := by
  rcases Nat.le_one_iff_eq_zero_or_eq_one.mp hx with h | h
  · subst h; simp
  · subst h
    cases k with
    | zero => simp
    | succ k => simp [Nat.testBit_succ]

/-- Bit `23 - j` of the assembled value is the `j`-th level sampled. -/
theorem msb_first_testBit (b : Nat → Nat) (n : Nat) (hn : n ≤ 24)
    (hb : ∀ i, i < n → b i ≤ 1) (j : Nat) (hj : j < 24) :
    (msb_first b n).testBit (23 - j) = (decide (j < n) && decide (b j = 1)) := by
  induction n with
  | zero => simp [msb_first]
  | succ n ih =>
    have ih2 := ih (by omega) (fun i hi => hb i (by omega))
    rw [msb_first_succ_or b n (by omega) (fun i hi => hb i (by omega)), Nat.testBit_or, ih2,
      Nat.testBit_shiftLeft, testBit_le_one _ _ (hb n (by omega))]
    rcases Nat.lt_trichotomy j n with h | h | h
    · have h1 : ¬ (23 - j - (23 - n) = 0) := by omega
      have h2 : j < n + 1 := by omega
      simp [h, h1, h2]
    · subst h
      simp
    · have h1 : ¬ (j < n) := by omega
      have h2 : ¬ (j < n + 1) := by omega
      have h3 : ¬ (23 - j ≥ 23 - n) := by omega
      simp [h1, h2, h3]

/-- C2: `read_raw` assembles the sample most significant bit first.  When the
24 levels sampled are 0 or 1, the value returned is the sum of
`b_i * 2^(23 - i)`, it is below `2^24`, bit `23 - i` is the `i`-th level (the
first sample is bit 23, the last is bit 0), and the data line is sampled once
in each of the 24 data pulses and nowhere else. -/
theorem read_raw_msb_first (env : Env) (dout pd_sck gain : Nat) (w : World)
    (hb : ∀ i, i < 24 → env.level (w.reads + i) ≤ 1) :
    (read_raw env dout pd_sck gain w).1
        = ∑ i in Finset.range 24, env.level (w.reads + i) * 2 ^ (23 - i)
    ∧ (read_raw env dout pd_sck gain w).1 < 2 ^ 24
    ∧ (∀ i, i < 24 →
        (read_raw env dout pd_sck gain w).1.testBit (23 - i)
          = decide (env.level (w.reads + i) = 1))
    ∧ (read_raw env dout pd_sck gain w).2.reads = w.reads + 24
    ∧ (read_raw env dout pd_sck gain w).2.trace
        = w.trace ++ ([Event.enter_critical]
            ++ (List.range 24).flatMap
                (fun i => [Event.set_level pd_sck 1, Event.delay_us 1,
                           Event.get_level dout (env.level (w.reads + i)),
                           Event.set_level pd_sck 0, Event.delay_us 1])
            ++ gain_events pd_sck (gain + 1) ++ [Event.exit_critical])
    ∧ sample_count (gain_events pd_sck (gain + 1)) = 0 := by
  have hv := read_raw_value env dout pd_sck gain w hb
  have hw := read_raw_world env dout pd_sck gain w
  refine ⟨?_, ?_, ?_, ?_, ?_, ?_⟩
  · rw [hv, msb_first]
  · rw [hv]
    have := msb_first_lt (fun i => env.level (w.reads + i)) 24 (by omega) hb
    omega
  · intro i hi
    rw [hv, msb_first_testBit _ 24 (by omega) hb i hi]
    simp [hi]
  · rw [hw, after_shift]
  · rw [hw, after_shift, shift_events, data_events]
    rfl
  · unfold sample_count gain_events
    generalize gain + 1 = n
    induction n with
    | zero => simp
    | succ n ih =>
      rw [List.replicate_succ, List.flatten_cons, List.countP_append, ih]
      simp [gain_pulse_events, List.countP_cons, Event.is_sample]

/-- Witness for C2: alternating levels 0, 1, 0, 1, .. assemble to `0x555555`. -/
theorem read_raw_msb_first_witness :
    (read_raw (env_of (fun k => k % 2) 1) 4 5 0 world0).1 = 0x555555 := by
  have h := (read_raw_msb_first (env_of (fun k => k % 2) 1) 4 5 0 world0
    (fun i _ => by simp only [env_of]; omega)).1
  rw [h]
  decide

/-! ## Pulse and sample counts -/

theorem clock_high_count_data_events (env : Env) (dout pd_sck reads0 n : Nat) :
    clock_high_count pd_sck (data_events env dout pd_sck reads0 n) = n := by
  induction n with
  | zero => simp [data_events, clock_high_count]
  | succ n ih =>
    unfold clock_high_count at ih ⊢
    rw [data_events_succ, List.count_append, ih]
    simp [data_pulse_events, List.count_cons]

theorem clock_high_count_gain_events (pd_sck n : Nat) :
    clock_high_count pd_sck (gain_events pd_sck n) = n := by
  induction n with
  | zero => simp [gain_events, clock_high_count]
  | succ n ih =>
    unfold clock_high_count at ih ⊢
    rw [gain_events_succ, List.count_append, ih]
    simp [gain_pulse_events, List.count_cons]

theorem sample_count_data_events (env : Env) (dout pd_sck reads0 n : Nat) :
    sample_count (data_events env dout pd_sck reads0 n) = n := by
  induction n with
  | zero => simp [data_events, sample_count]
  | succ n ih =>
    unfold sample_count at ih ⊢
    rw [data_events_succ, List.countP_append, ih]
    simp [data_pulse_events, List.countP_cons, Event.is_sample]

theorem sample_count_gain_events (pd_sck n : Nat) :
    sample_count (gain_events pd_sck n) = 0 := by
  induction n with
  | zero => simp [gain_events, sample_count]
  | succ n ih =>
    unfold sample_count at ih ⊢
    rw [gain_events_succ, List.countP_append, ih]
    simp [gain_pulse_events, List.countP_cons, Event.is_sample]

theorem clock_high_count_shift_events (env : Env) (dout pd_sck reads0 n : Nat) :
    clock_high_count pd_sck (shift_events env dout pd_sck reads0 n) = 24 + n := by
  have h1 := clock_high_count_data_events env dout pd_sck reads0 24
  have h2 := clock_high_count_gain_events pd_sck n
  unfold clock_high_count at h1 h2 ⊢
  unfold shift_events
  rw [List.count_append, List.count_append, List.count_append, h1, h2]
  simp [List.count_cons]

theorem sample_count_shift_events (env : Env) (dout pd_sck reads0 n : Nat) :
    sample_count (shift_events env dout pd_sck reads0 n) = 24 := by
  have h1 := sample_count_data_events env dout pd_sck reads0 24
  have h2 := sample_count_gain_events pd_sck n
  unfold sample_count at h1 h2 ⊢
  unfold shift_events
  rw [List.countP_append, List.countP_append, List.countP_append, h1, h2]
  simp [List.countP_cons, Event.is_sample]

theorem read_raw_new_events (env : Env) (dout pd_sck gain : Nat) (w : World) :
    new_events w (read_raw env dout pd_sck gain w).2
      = shift_events env dout pd_sck w.reads (gain + 1) := by
  apply new_events_append
  rw [read_raw_world, after_shift]

/-- C3: with the selections numbered 0, 1, 2, a shift with a supported gain
emits after the 24 data pulses exactly `gain + 1` trailing pulses, that is 1, 2
and 3 pulses for channel A x128, channel B x32 and channel A x64; the clock is
driven high `24 + gain + 1` times in all, nothing is sampled in the trailing
pulses, and each pulse count from 1 to 3 belongs to exactly one selection. -/
theorem gain_pulse_count_bijection (env : Env) (dout pd_sck gain : Nat) (w : World)
    (hg : gain ≤ HX711_GAIN_A_64) :
    new_events w (read_raw env dout pd_sck gain w).2
        = [Event.enter_critical] ++ data_events env dout pd_sck w.reads 24
            ++ (List.replicate (gain + 1)
                  [Event.set_level pd_sck 1, Event.delay_us 1,
                   Event.set_level pd_sck 0, Event.delay_us 1]).flatten
            ++ [Event.exit_critical]
    ∧ clock_high_count pd_sck (data_events env dout pd_sck w.reads 24) = 24
    ∧ clock_high_count pd_sck (new_events w (read_raw env dout pd_sck gain w).2)
        = 24 + gain + 1
    ∧ sample_count (data_events env dout pd_sck w.reads 24) = 24
    ∧ sample_count (new_events w (read_raw env dout pd_sck gain w).2) = 24
    ∧ (1 ≤ gain + 1 ∧ gain + 1 ≤ 3)
    ∧ (new_events w (read_raw env dout pd_sck HX711_GAIN_A_128 w).2
        = [Event.enter_critical] ++ data_events env dout pd_sck w.reads 24
            ++ gain_events pd_sck 1 ++ [Event.exit_critical])
    ∧ (new_events w (read_raw env dout pd_sck HX711_GAIN_B_32 w).2
        = [Event.enter_critical] ++ data_events env dout pd_sck w.reads 24
            ++ gain_events pd_sck 2 ++ [Event.exit_critical])
    ∧ (new_events w (read_raw env dout pd_sck HX711_GAIN_A_64 w).2
        = [Event.enter_critical] ++ data_events env dout pd_sck w.reads 24
            ++ gain_events pd_sck 3 ++ [Event.exit_critical])
    ∧ (∀ p, 1 ≤ p → p ≤ 3 →
        ∃! g, g ≤ HX711_GAIN_A_64
          ∧ clock_high_count pd_sck (new_events w (read_raw env dout pd_sck g w).2)
              = 24 + p) := by
  have hcount : ∀ g, clock_high_count pd_sck (new_events w (read_raw env dout pd_sck g w).2)
      = 24 + g + 1 := by
    intro g
    rw [read_raw_new_events, clock_high_count_shift_events]
    omega
  unfold HX711_GAIN_A_64 at hg ⊢
  refine ⟨?_, clock_high_count_data_events _ _ _ _ _, hcount gain,
    sample_count_data_events _ _ _ _ _, ?_, ⟨by omega, by omega⟩, ?_, ?_, ?_, ?_⟩
  · rw [read_raw_new_events]; rfl
  · rw [read_raw_new_events, sample_count_shift_events]
  · rw [read_raw_new_events]; rfl
  · rw [read_raw_new_events]; rfl
  · rw [read_raw_new_events]; rfl
  · intro p hp1 hp3
    refine ⟨p - 1, ⟨by omega, ?_⟩, ?_⟩
    · rw [hcount]; omega
    · rintro g ⟨_, hgc⟩
      rw [hcount] at hgc
      omega

/-- Witness for C3: channel A x64 (selection 2) drives the clock high 27 times. -/
theorem gain_pulse_count_bijection_witness :
    HX711_GAIN_A_64 ≤ HX711_GAIN_A_64
    ∧ clock_high_count 5
        (new_events world0 (read_raw (env_of (fun _ => 1) 1) 4 5 HX711_GAIN_A_64 world0).2)
      = 24 + HX711_GAIN_A_64 + 1 :=
  ⟨Nat.le_refl _,
   (gain_pulse_count_bijection (env_of (fun _ => 1) 1) 4 5 HX711_GAIN_A_64 world0
      (Nat.le_refl _)).2.2.1⟩

/-! ## Reading a sample -/

/-- A shift neither reads the clock nor yields. -/
theorem shift_events_no_wait (env : Env) (dout pd_sck reads0 n : Nat) (e : Event)
    (he : e ∈ shift_events env dout pd_sck reads0 n) : e.is_wait = false := by
  simp only [shift_events, data_events, gain_events, data_pulse_events, gain_pulse_events,
    List.mem_append, List.mem_flatMap, List.mem_flatten, List.mem_replicate, List.mem_cons,
    List.mem_singleton, List.mem_range] at he
  rcases he with ((h | ⟨i, _, h⟩) | ⟨l, ⟨_, rfl⟩, h⟩) | h
  · simp only [List.not_mem_nil, or_false] at h
    subst h; rfl
  · simp only [List.not_mem_nil, or_false] at h
    rcases h with h | h | h | h | h <;> (subst h; rfl)
  · simp only [List.mem_cons, List.mem_singleton, List.not_mem_nil, or_false] at h
    rcases h with h | h | h | h <;> (subst h; rfl)
  · simp only [List.not_mem_nil, or_false] at h
    subst h; rfl

/-- C4: a read on a non-null handle with a non-null output cell returns
success, stores the sign-extended value of the 24 levels sampled (first sample
most significant), shifts once with the trailing pulses of the stored gain
(one trailing pulse and 25 clock pulses for channel A x128), starts clocking at
once without reading the data line or the clock and without yielding, and
leaves the handle as it was.  The levels sampled are 0 or 1 and the stored
gain is below the largest `size_t`. -/
theorem read_data_end_to_end (env : Env) (d : hx711_t) (old : Int) (w : World)
    (hb : ∀ i, i < 24 → env.level (w.reads + i) ≤ 1) (_hg : d.gain + 1 < 2 ^ 32) :
    hx711_read_data env (some d) (some old) w
        = (ESP_OK, some d,
           some (sign_extend (∑ i in Finset.range 24, env.level (w.reads + i) * 2 ^ (23 - i))),
           after_shift env d.dout d.pd_sck (d.gain + 1) w)
    ∧ new_events w (hx711_read_data env (some d) (some old) w).2.2.2
        = [Event.enter_critical] ++ data_events env d.dout d.pd_sck w.reads 24
            ++ gain_events d.pd_sck (d.gain + 1) ++ [Event.exit_critical]
    ∧ (d.gain = HX711_GAIN_A_128 →
        gain_events d.pd_sck (d.gain + 1)
            = [Event.set_level d.pd_sck 1, Event.delay_us 1,
               Event.set_level d.pd_sck 0, Event.delay_us 1]
        ∧ clock_high_count d.pd_sck
            (new_events w (hx711_read_data env (some d) (some old) w).2.2.2) = 25)
    ∧ (new_events w (hx711_read_data env (some d) (some old) w).2.2.2).take 3
        = [Event.enter_critical, Event.set_level d.pd_sck 1, Event.delay_us 1]
    ∧ (∀ e, e ∈ new_events w (hx711_read_data env (some d) (some old) w).2.2.2 →
        e.is_wait = false)
    ∧ sample_count (new_events w (hx711_read_data env (some d) (some old) w).2.2.2) = 24 := by
  have hv := read_raw_value env d.dout d.pd_sck d.gain w hb
  have hw := read_raw_world env d.dout d.pd_sck d.gain w
  have hres : hx711_read_data env (some d) (some old) w
      = (ESP_OK, some d,
         some (sign_extend (∑ i in Finset.range 24, env.level (w.reads + i) * 2 ^ (23 - i))),
         after_shift env d.dout d.pd_sck (d.gain + 1) w) := by
    simp only [hx711_read_data]
    rw [hv, hw, msb_first]
  have hnew : new_events w (hx711_read_data env (some d) (some old) w).2.2.2
      = shift_events env d.dout d.pd_sck w.reads (d.gain + 1) := by
    rw [hres]
    exact new_events_append _ _ _ rfl
  refine ⟨hres, ?_, ?_, ?_, ?_, ?_⟩
  · rw [hnew, shift_events]
  · intro h0
    refine ⟨?_, ?_⟩
    · rw [h0]; rfl
    · rw [hnew, clock_high_count_shift_events, h0]; rfl
  · rw [hnew]; rfl
  · intro e he
    rw [hnew] at he
    exact shift_events_no_wait _ _ _ _ _ e he
  · rw [hnew, sample_count_shift_events]

/-- Witness for C4 on the handle `dev0` (channel A x128): 24 levels all 1 give
-1, and a 1 followed by 23 zeros gives -8388608. -/
theorem read_data_end_to_end_witness :
    (hx711_read_data (env_of (fun _ => 1) 1) (some dev0) (some 0) world0).2.2.1 = some (-1)
    ∧ (hx711_read_data (env_of (fun k => if k = 0 then 1 else 0) 1) (some dev0) (some 0)
        world0).2.2.1 = some (-8388608) := by
  have h1 := (read_data_end_to_end (env_of (fun _ => 1) 1) dev0 0 world0
    (fun i _ => by simp [env_of]) (by decide)).1
  have h2 := (read_data_end_to_end (env_of (fun k => if k = 0 then 1 else 0) 1) dev0 0 world0
    (fun i _ => by simp only [env_of]; split <;> omega) (by decide)).1
  rw [h1, h2]
  constructor <;> decide

/-! ## Waiting for readiness -/

/-- Whatever the poll loop returns on a non-null handle, it is success or
timeout, and the loop only read the clock, sampled the data line and yielded. -/
theorem wait_loop_ret (env : Env) (d : hx711_t) (started T : Nat) :
    ∀ (fuel : Nat) (w : World) (e : esp_err_t) (w2 : World),
      hx711_wait_loop env (some d) started T fuel w = Outcome.ret e w2 →
      (e = ESP_OK ∨ e = ESP_ERR_TIMEOUT) ∧ w2.sets = w.sets ∧ w2.dirs = w.dirs
        ∧ w.clocks + 1 ≤ w2.clocks
        ∧ ∃ evs, w2.trace = w.trace ++ evs ∧ ∀ ev, ev ∈ evs → ev.is_poll = true := by
  intro fuel
  induction fuel with
  | zero =>
    intro w e w2 h
    simp [hx711_wait_loop] at h
  | succ fuel ih =>
    intro w e w2 h
    simp only [hx711_wait_loop] at h
    by_cases hc : u32_sub (get_time_ms env w).1 started < T
    · rw [if_pos hc] at h
      by_cases hl : (gpio_get_level env d.dout (get_time_ms env w).2).1 = 0
      · rw [if_pos hl] at h
        injection h with he hw
        subst he; subst hw
        refine ⟨Or.inl rfl, rfl, rfl, Nat.le_refl _, ?_⟩
        refine ⟨[Event.gettimeofday (env.timeofday w.clocks).1 (env.timeofday w.clocks).2,
          Event.get_level d.dout (env.level w.reads)], ?_, ?_⟩
        · simp [gpio_get_level, get_time_ms]
        · intro ev hev
          simp only [List.mem_cons, List.mem_singleton, List.not_mem_nil, or_false] at hev
          rcases hev with h | h <;> (subst h; rfl)
      · rw [if_neg hl] at h
        obtain ⟨h1, h2, h3, h4, evs, h5, h6⟩ := ih _ _ _ h
        refine ⟨h1, ?_, ?_, ?_, ?_⟩
        · rw [h2]; rfl
        · rw [h3]; rfl
        · simp only [vTaskDelay, gpio_get_level, get_time_ms] at h4
          omega
        · refine ⟨[Event.gettimeofday (env.timeofday w.clocks).1 (env.timeofday w.clocks).2,
            Event.get_level d.dout (env.level w.reads), Event.task_delay 1] ++ evs, ?_, ?_⟩
          · rw [h5]
            simp [vTaskDelay, gpio_get_level, get_time_ms]
          · intro ev hev
            rw [List.mem_append] at hev
            rcases hev with hev | hev
            · simp only [List.mem_cons, List.mem_singleton, List.not_mem_nil, or_false] at hev
              rcases hev with h | h | h <;> (subst h; rfl)
            · exact h6 ev hev
    · rw [if_neg hc] at h
      injection h with he hw
      subst he; subst hw
      refine ⟨Or.inr rfl, rfl, rfl, Nat.le_refl _, ?_⟩
      refine ⟨[Event.gettimeofday (env.timeofday w.clocks).1 (env.timeofday w.clocks).2], ?_, ?_⟩
      · simp [get_time_ms]
      · intro ev hev
        simp only [List.mem_singleton] at hev
        subst hev; rfl

/-- A timeout is always decided by the clock reading taken last, whose
distance from `started` has reached the timeout. -/
theorem wait_loop_timeout_last (env : Env) (d : hx711_t) (started T : Nat) :
    ∀ (fuel : Nat) (w w2 : World),
      hx711_wait_loop env (some d) started T fuel w = Outcome.ret ESP_ERR_TIMEOUT w2 →
      ∃ pre sec usec, w2.trace = pre ++ [Event.gettimeofday sec usec]
        ∧ T ≤ u32_sub (time_ms sec usec) started := by
  intro fuel
  induction fuel with
  | zero =>
    intro w w2 h
    simp [hx711_wait_loop] at h
  | succ fuel ih =>
    intro w w2 h
    simp only [hx711_wait_loop] at h
    by_cases hc : u32_sub (get_time_ms env w).1 started < T
    · rw [if_pos hc] at h
      by_cases hl : (gpio_get_level env d.dout (get_time_ms env w).2).1 = 0
      · rw [if_pos hl] at h
        injection h with he hw
        exact absurd he (by decide)
      · rw [if_neg hl] at h
        exact ih _ _ h
    · rw [if_neg hc] at h
      injection h with he hw
      subst hw
      refine ⟨w.trace, (env.timeofday w.clocks).1, (env.timeofday w.clocks).2, rfl, ?_⟩
      simp only [get_time_ms] at hc
      omega

/-- While the data line reads high the poll loop does not succeed. -/
theorem wait_loop_high (env : Env) (d : hx711_t) (started T : Nat) :
    ∀ (fuel : Nat) (w w2 : World), (∀ k, w.reads ≤ k → env.level k ≠ 0) →
      hx711_wait_loop env (some d) started T fuel w ≠ Outcome.ret ESP_OK w2 := by
  intro fuel
  induction fuel with
  | zero =>
    intro w w2 _ h
    simp [hx711_wait_loop] at h
  | succ fuel ih =>
    intro w w2 hhigh h
    simp only [hx711_wait_loop] at h
    by_cases hc : u32_sub (get_time_ms env w).1 started < T
    · rw [if_pos hc] at h
      have hl : ¬ (gpio_get_level env d.dout (get_time_ms env w).2).1 = 0 :=
        hhigh w.reads (Nat.le_refl _)
      rw [if_neg hl] at h
      refine ih _ _ ?_ h
      intro k hk
      apply hhigh
      simp only [vTaskDelay, gpio_get_level, get_time_ms] at hk
      omega
    · rw [if_neg hc] at h
      injection h with he hw
      exact absurd he (by decide)

/-- While the data line reads high, the poll loop returns the timeout as soon
as the fuel covers a clock reading whose distance from `started` has reached
the timeout. -/
theorem wait_loop_expires (env : Env) (d : hx711_t) (started T : Nat) :
    ∀ (fuel : Nat) (w : World), (∀ k, w.reads ≤ k → env.level k ≠ 0) →
      (∃ k, k < fuel ∧ T ≤ u32_sub (time_ms (env.timeofday (w.clocks + k)).1
          (env.timeofday (w.clocks + k)).2) started) →
      ∃ w2, hx711_wait_loop env (some d) started T fuel w = Outcome.ret ESP_ERR_TIMEOUT w2 := by
  intro fuel
  induction fuel with
  | zero =>
    rintro w _ ⟨k, hk, _⟩
    omega
  | succ fuel ih =>
    rintro w hhigh ⟨k, hk, hT⟩
    simp only [hx711_wait_loop]
    by_cases hc : u32_sub (get_time_ms env w).1 started < T
    · rw [if_pos hc]
      have hl : ¬ (gpio_get_level env d.dout (get_time_ms env w).2).1 = 0 :=
        hhigh w.reads (Nat.le_refl _)
      rw [if_neg hl]
      apply ih
      · intro j hj
        apply hhigh
        simp only [vTaskDelay, gpio_get_level, get_time_ms] at hj
        omega
      · have hk0 : k ≠ 0 := by
          intro h0
          subst h0
          simp only [get_time_ms, Nat.add_zero] at hc hT
          omega
        refine ⟨k - 1, by omega, ?_⟩
        have : (vTaskDelay 1 (gpio_get_level env d.dout (get_time_ms env w).2).2).clocks + (k - 1)
            = w.clocks + k := by
          simp only [vTaskDelay, gpio_get_level, get_time_ms]
          omega
        rw [this]
        exact hT
    · rw [if_neg hc]
      exact ⟨_, rfl⟩

/-- C6 (as the code behaves): with timeout 0 the loop condition fails at once,
so `hx711_wait` returns the timeout error whether or not the data line is low;
it reads the clock twice and does nothing else: no sample of the data line, no
delay. -/
theorem wait_zero_timeout (fuel : Nat) (env : Env) (dev : Option hx711_t) (w : World) :
    hx711_wait (fuel + 1) env dev 0 w
      = Outcome.ret ESP_ERR_TIMEOUT
          { w with clocks := w.clocks + 2,
                   trace := w.trace
                     ++ [Event.gettimeofday (env.timeofday w.clocks).1 (env.timeofday w.clocks).2,
                         Event.gettimeofday (env.timeofday (w.clocks + 1)).1
                           (env.timeofday (w.clocks + 1)).2] } := by
  simp [hx711_wait, hx711_wait_loop, get_time_ms]

/-- C6 fails as stated: the device is ready (the data line reads low at the
time of the call), yet `hx711_wait` with timeout 0 returns the timeout error. -/
theorem wait_zero_timeout_ready_counterexample :
    (env_of (fun _ => 0) 1).level world0.reads = 0
    ∧ hx711_wait 3 (env_of (fun _ => 0) 1) (some dev0) 0 world0
        = Outcome.ret ESP_ERR_TIMEOUT
            { reads := 0, clocks := 2, dirs := 0, sets := 0,
              trace := [Event.gettimeofday 0 0, Event.gettimeofday 0 1000] }
    ∧ ESP_ERR_TIMEOUT ≠ ESP_OK := by
  refine ⟨rfl, ?_, ?_⟩ <;> decide

/-- A success of the poll loop ends on a sample of the data line that read 0. -/
theorem wait_loop_ok_sample (env : Env) (d : hx711_t) (started T : Nat) :
    ∀ (fuel : Nat) (w w2 : World),
      hx711_wait_loop env (some d) started T fuel w = Outcome.ret ESP_OK w2 →
      ∃ evs, w2.trace = w.trace ++ evs ∧ Event.get_level d.dout 0 ∈ evs := by
  intro fuel
  induction fuel with
  | zero =>
    intro w w2 h
    simp [hx711_wait_loop] at h
  | succ fuel ih =>
    intro w w2 h
    simp only [hx711_wait_loop] at h
    by_cases hc : u32_sub (get_time_ms env w).1 started < T
    · rw [if_pos hc] at h
      by_cases hl : (gpio_get_level env d.dout (get_time_ms env w).2).1 = 0
      · rw [if_pos hl] at h
        injection h with he hw
        subst hw
        have hl2 : env.level w.reads = 0 := hl
        refine ⟨[Event.gettimeofday (env.timeofday w.clocks).1 (env.timeofday w.clocks).2,
          Event.get_level d.dout 0], ?_, by simp⟩
        simp [gpio_get_level, get_time_ms, hl2]
      · rw [if_neg hl] at h
        obtain ⟨evs, h1, h2⟩ := ih _ _ h
        refine ⟨[Event.gettimeofday (env.timeofday w.clocks).1 (env.timeofday w.clocks).2,
          Event.get_level d.dout (env.level w.reads), Event.task_delay 1] ++ evs, ?_, ?_⟩
        · rw [h1]
          simp [vTaskDelay, gpio_get_level, get_time_ms]
        · exact List.mem_append_right _ h2
    · rw [if_neg hc] at h
      injection h with he hw
      exact absurd he (by decide)

/-- C7: a call of `hx711_wait` in which every sample of the data line reads
high never returns success, for any timeout and any clock: whenever it returns,
it returns the timeout error and the last clock reading is at least the timeout
away (modulo `2^32`) from the reading taken at entry.  With the data line high
throughout it does return, with the timeout error, as soon as the fuel covers a
clock reading that far away. -/
theorem wait_never_ready_times_out (fuel : Nat) (env : Env) (d : hx711_t) (T : Nat) (w : World) :
    (∀ e w2, hx711_wait fuel env (some d) T w = Outcome.ret e w2 →
        (∀ pin lvl, Event.get_level pin lvl ∈ new_events w w2 → lvl ≠ 0) →
        e = ESP_ERR_TIMEOUT
        ∧ ∃ pre sec usec, w2.trace = pre ++ [Event.gettimeofday sec usec]
            ∧ T ≤ u32_sub (time_ms sec usec)
                  (time_ms (env.timeofday w.clocks).1 (env.timeofday w.clocks).2))
    ∧ ((∀ k, w.reads ≤ k → env.level k ≠ 0) →
        (∀ w2, hx711_wait fuel env (some d) T w ≠ Outcome.ret ESP_OK w2)
        ∧ ((∃ k, k < fuel
              ∧ T ≤ u32_sub (time_ms (env.timeofday (w.clocks + 1 + k)).1
                      (env.timeofday (w.clocks + 1 + k)).2)
                    (time_ms (env.timeofday w.clocks).1 (env.timeofday w.clocks).2)) →
            ∃ w2, hx711_wait fuel env (some d) T w = Outcome.ret ESP_ERR_TIMEOUT w2)) := by
  constructor
  · intro e w2 h hhigh
    have he : e = ESP_ERR_TIMEOUT := by
      rcases (wait_loop_ret env d _ T fuel _ e w2 h).1 with h1 | h1
      · subst h1
        obtain ⟨evs, h2, h3⟩ := wait_loop_ok_sample env d _ T fuel _ w2 h
        have hn : new_events w w2
            = Event.gettimeofday (env.timeofday w.clocks).1 (env.timeofday w.clocks).2
                :: evs := by
          apply new_events_append
          rw [h2]
          simp [get_time_ms]
        exact absurd rfl (hhigh d.dout 0 (by rw [hn]; exact List.mem_cons_of_mem _ h3))
      · exact h1
    subst he
    exact ⟨rfl, wait_loop_timeout_last env d _ T fuel _ w2 h⟩
  · intro hhigh
    have hhigh2 : ∀ k, (get_time_ms env w).2.reads ≤ k → env.level k ≠ 0 := hhigh
    exact ⟨fun w2 => wait_loop_high env d _ T fuel _ w2 hhigh2,
      fun hk => wait_loop_expires env d _ T fuel _ hhigh2 hk⟩

/-- Witness for C7: data line always high, clock advancing 100 ms per reading,
timeout 250 ms: the call returns the timeout error. -/
theorem wait_never_ready_times_out_witness :
    (∀ k, world0.reads ≤ k → (env_of (fun _ => 1) 100).level k ≠ 0)
    ∧ ∃ w2, hx711_wait 5 (env_of (fun _ => 1) 100) (some dev0) 250 world0
        = Outcome.ret ESP_ERR_TIMEOUT w2 :=
  ⟨fun _ _ => by simp [env_of],
   ((wait_never_ready_times_out 5 (env_of (fun _ => 1) 100) dev0 250 world0).2
      (fun _ _ => by simp [env_of])).2 ⟨2, by decide, by decide⟩⟩

/-- The loop condition on a clock that has advanced by `e` since `started`. -/
theorem wait_cond_iff (s e T : Nat) (he : e < 2 ^ 32) :
    u32_sub ((s + e) % 2 ^ 32) s < T ↔ e < T := by
  have h : u32_sub ((s + e) % 2 ^ 32) s = e := by
    unfold u32_sub
    omega
  rw [h]

/-- C8: the timeout check is the unsigned 32-bit difference `now - started`.
When the clock reads `(s + e) mod 2^32` for a true elapsed time `e < 2^32`,
wrapped or not, the loop condition holds exactly when `e < T`: the loop then
runs its body (a sample of the data line), and otherwise returns the timeout
error at once.  A comparison `now > started + timeout` on 32-bit values would
decide differently on a wrapped clock. -/
theorem wait_wraparound_safe (s e T : Nat) (he : e < 2 ^ 32) :
    (u32_sub ((s + e) % 2 ^ 32) s < T ↔ e < T)
    ∧ (∀ (fuel : Nat) (env : Env) (d : hx711_t) (w : World),
        time_ms (env.timeofday w.clocks).1 (env.timeofday w.clocks).2 = (s + e) % 2 ^ 32 →
        (T ≤ e →
          hx711_wait_loop env (some d) s T (fuel + 1) w
            = Outcome.ret ESP_ERR_TIMEOUT (get_time_ms env w).2)
        ∧ (e < T →
          hx711_wait_loop env (some d) s T (fuel + 1) w
            = if (gpio_get_level env d.dout (get_time_ms env w).2).1 = 0
              then Outcome.ret ESP_OK (gpio_get_level env d.dout (get_time_ms env w).2).2
              else hx711_wait_loop env (some d) s T fuel
                (vTaskDelay 1 (gpio_get_level env d.dout (get_time_ms env w).2).2)))
    ∧ (u32_sub ((4294967196 + 50) % 2 ^ 32) 4294967196 < 200
        ∧ naive_expired ((4294967196 + 50) % 2 ^ 32) 4294967196 200 = true) := by
  have hiff := wait_cond_iff s e T he
  refine ⟨hiff, ?_, by decide⟩
  intro fuel env d w hnow
  have hnow2 : (get_time_ms env w).1 = (s + e) % 2 ^ 32 := hnow
  constructor
  · intro hT
    have hc : ¬ u32_sub (get_time_ms env w).1 s < T := by
      rw [hnow2, hiff]; omega
    simp only [hx711_wait_loop]
    rw [if_neg hc]
  · intro hT
    have hc : u32_sub (get_time_ms env w).1 s < T := by
      rw [hnow2, hiff]; exact hT
    simp only [hx711_wait_loop]
    rw [if_pos hc]

/-- Witness for C8: the clock started 100 ms before wrapping and 150 ms have
passed; with a 200 ms timeout the loop condition still holds. -/
theorem wait_wraparound_safe_witness :
    (150 : Nat) < 2 ^ 32
    ∧ (u32_sub ((4294967196 + 150) % 2 ^ 32) 4294967196 < 200 ↔ 150 < 200) :=
  ⟨by decide, (wait_wraparound_safe 4294967196 150 200 (by decide)).1⟩

/-! ## Changing the gain -/

theorem is_poll_not_write (e : Event) (h : e.is_poll = true) :
    e.is_write = false ∧ e ≠ Event.enter_critical ∧ e ≠ Event.exit_critical := by
  cases e <;> simp [Event.is_poll, Event.is_write] at h ⊢

/-- What `hx711_wait` leaves behind when it returns on a non-null handle. -/
theorem wait_ret (fuel : Nat) (env : Env) (d : hx711_t) (T : Nat) (w : World)
    (e : esp_err_t) (w2 : World) (h : hx711_wait fuel env (some d) T w = Outcome.ret e w2) :
    (e = ESP_OK ∨ e = ESP_ERR_TIMEOUT) ∧ w2.sets = w.sets ∧ w2.dirs = w.dirs
      ∧ w.clocks + 2 ≤ w2.clocks
      ∧ ∀ ev, ev ∈ new_events w w2 → ev.is_poll = true := by
  obtain ⟨h1, h2, h3, h4, evs, h5, h6⟩ := wait_loop_ret env d _ T fuel _ e w2 h
  refine ⟨h1, h2, h3, ?_, ?_⟩
  · simp only [get_time_ms] at h4
    omega
  · intro ev hev
    have hn : new_events w w2
        = Event.gettimeofday (env.timeofday w.clocks).1 (env.timeofday w.clocks).2 :: evs := by
      apply new_events_append
      rw [h5]
      simp [get_time_ms]
    rw [hn, List.mem_cons] at hev
    rcases hev with hev | hev
    · subst hev; rfl
    · exact h6 ev hev

/-- C9: when the 200 ms wait inside `hx711_set_gain` times out, the call
returns the timeout error, the handle (pins and stored gain) is what it was,
and nothing was written to any pin and no shift was started: the call only
read the clock, sampled the data line and yielded. -/
theorem set_gain_timeout_atomic (fuel : Nat) (env : Env) (d : hx711_t) (g : Nat)
    (w w1 : World) (hg : g ≤ HX711_GAIN_A_64)
    (ht : hx711_wait fuel env (some d) 200 w = Outcome.ret ESP_ERR_TIMEOUT w1) :
    hx711_set_gain fuel env (some d) g w = Outcome.ret (ESP_ERR_TIMEOUT, some d) w1
    ∧ w1.sets = w.sets
    ∧ (∀ ev, ev ∈ new_events w w1 →
        ev.is_write = false ∧ ev ≠ Event.enter_critical ∧ ev ≠ Event.exit_critical)
    ∧ clock_high_count d.pd_sck (new_events w w1) = 0 := by
  obtain ⟨_, h2, _, _, h5⟩ := wait_ret fuel env d 200 w _ w1 ht
  have hnw : ∀ ev, ev ∈ new_events w w1 →
      ev.is_write = false ∧ ev ≠ Event.enter_critical ∧ ev ≠ Event.exit_critical :=
    fun ev hev => is_poll_not_write ev (h5 ev hev)
  refine ⟨?_, h2, hnw, ?_⟩
  · simp only [hx711_set_gain]
    rw [if_neg (by omega), ht]
    simp only []
    rw [if_pos (by decide)]
  · unfold clock_high_count
    rw [List.count_eq_zero]
    intro hmem
    have := (hnw _ hmem).1
    simp [Event.is_write] at this

/-- Witness for C9: data line high, clock advancing 100 ms per reading; the
wait gives up at the reading 200 ms after entry and the handle keeps its gain. -/
theorem set_gain_timeout_atomic_witness :
    hx711_set_gain 5 (env_of (fun _ => 1) 100) (some dev0) HX711_GAIN_A_64 world0
      = Outcome.ret (ESP_ERR_TIMEOUT, some dev0)
          { reads := 1, clocks := 3, dirs := 0, sets := 0,
            trace := [Event.gettimeofday 0 0, Event.gettimeofday 0 100000,
                      Event.get_level 4 1, Event.task_delay 1,
                      Event.gettimeofday 0 200000] } :=
  (set_gain_timeout_atomic 5 (env_of (fun _ => 1) 100) dev0 HX711_GAIN_A_64 world0 _
    (Nat.le_refl _) (by decide)).1

/-- C10: `hx711_set_gain` on a non-null handle answers a gain above channel
A x64 with the invalid-argument error and touches nothing: the world (counters
and trace) and the handle are returned as they were.  A supported gain passes
the check: the call is never answered with invalid-argument, it returns only
success or timeout, and by then the wait has read the clock at least twice. -/
theorem set_gain_validates_gain (fuel : Nat) (env : Env) (d : hx711_t) (g : Nat) (w : World) :
    (HX711_GAIN_A_64 < g →
      hx711_set_gain fuel env (some d) g w = Outcome.ret (ESP_ERR_INVALID_ARG, some d) w)
    ∧ (g ≤ HX711_GAIN_A_64 →
        ∀ r w2, hx711_set_gain fuel env (some d) g w = Outcome.ret r w2 →
          r.1 ≠ ESP_ERR_INVALID_ARG ∧ (r.1 = ESP_OK ∨ r.1 = ESP_ERR_TIMEOUT)
          ∧ w.clocks + 2 ≤ w2.clocks) := by
  constructor
  · intro hg
    simp only [hx711_set_gain]
    rw [if_pos (by omega)]
  · intro hg r w2 h
    simp only [hx711_set_gain] at h
    rw [if_neg (by omega)] at h
    cases hwait : hx711_wait fuel env (some d) 200 w with
    | out_of_fuel => rw [hwait] at h; simp at h
    | null_deref w1 => rw [hwait] at h; simp at h
    | ret e w1 =>
      rw [hwait] at h
      simp only [] at h
      obtain ⟨h1, _, _, h4, _⟩ := wait_ret fuel env d 200 w e w1 hwait
      by_cases he : e = ESP_OK
      · rw [if_neg (by simpa using he)] at h
        injection h with hr hw
        subst hr; subst hw
        refine ⟨show ESP_OK ≠ ESP_ERR_INVALID_ARG by decide, Or.inl rfl, ?_⟩
        rw [read_raw_world]
        exact h4
      · rw [if_pos he] at h
        injection h with hr hw
        subst hr; subst hw
        rcases h1 with h1 | h1
        · exact absurd h1 he
        · subst h1
          exact ⟨show ESP_ERR_TIMEOUT ≠ ESP_ERR_INVALID_ARG by decide, Or.inr rfl, h4⟩

/-- Witness for C10: selection 3 is refused with nothing done, and channel
A x64 (selection 2) on a ready device is accepted. -/
theorem set_gain_validates_gain_witness :
    hx711_set_gain 5 (env_of (fun _ => 0) 1) (some dev0) 3 world0
        = Outcome.ret (ESP_ERR_INVALID_ARG, some dev0) world0
    ∧ ∀ r w2, hx711_set_gain 5 (env_of (fun _ => 0) 1) (some dev0) HX711_GAIN_A_64 world0
          = Outcome.ret r w2 → r.1 ≠ ESP_ERR_INVALID_ARG :=
  ⟨(set_gain_validates_gain 5 (env_of (fun _ => 0) 1) dev0 3 world0).1 (by decide),
   fun r w2 h =>
    ((set_gain_validates_gain 5 (env_of (fun _ => 0) 1) dev0 HX711_GAIN_A_64 world0).2
      (Nat.le_refl _) r w2 h).1⟩

/-- The success path of `hx711_set_gain`. -/
theorem set_gain_ok (fuel : Nat) (env : Env) (d : hx711_t) (g : Nat) (w w1 : World)
    (hg : g ≤ HX711_GAIN_A_64)
    (hok : hx711_wait fuel env (some d) 200 w = Outcome.ret ESP_OK w1) :
    hx711_set_gain fuel env (some d) g w
      = Outcome.ret (ESP_OK, some { dout := d.dout, pd_sck := d.pd_sck, gain := g })
          (after_shift env d.dout d.pd_sck (g + 1) w1) := by
  simp only [hx711_set_gain]
  rw [if_neg (by omega), hok]
  simp only []
  rw [if_neg (by simp), read_raw_world]

/-- Every return of `hx711_set_gain` on a non-null handle: either a failure
that leaves the handle alone, or a success after a successful wait and one
whole shift with the new gain. -/
theorem set_gain_ret (fuel : Nat) (env : Env) (d : hx711_t) (g : Nat) (w : World)
    (r : esp_err_t × Option hx711_t) (w2 : World)
    (h : hx711_set_gain fuel env (some d) g w = Outcome.ret r w2) :
    (r.1 ≠ ESP_OK ∧ r.2 = some d)
    ∨ (r.1 = ESP_OK ∧ g ≤ HX711_GAIN_A_64
        ∧ r.2 = some { dout := d.dout, pd_sck := d.pd_sck, gain := g }
        ∧ ∃ w1, hx711_wait fuel env (some d) 200 w = Outcome.ret ESP_OK w1
            ∧ w2 = after_shift env d.dout d.pd_sck (g + 1) w1) := by
  by_cases hg : g ≤ HX711_GAIN_A_64
  · cases hwait : hx711_wait fuel env (some d) 200 w with
    | out_of_fuel =>
      simp only [hx711_set_gain] at h
      rw [if_neg (by omega), hwait] at h
      simp at h
    | null_deref w1 =>
      simp only [hx711_set_gain] at h
      rw [if_neg (by omega), hwait] at h
      simp at h
    | ret e w1 =>
      by_cases he : e = ESP_OK
      · subst he
        rw [set_gain_ok fuel env d g w w1 hg hwait] at h
        injection h with hr hw
        subst hr; subst hw
        exact Or.inr ⟨rfl, hg, rfl, w1, rfl, rfl⟩
      · simp only [hx711_set_gain] at h
        rw [if_neg (by omega), hwait] at h
        simp only [] at h
        rw [if_pos he] at h
        injection h with hr hw
        subst hr
        exact Or.inl ⟨he, rfl⟩
  · simp only [hx711_set_gain] at h
    rw [if_pos hg] at h
    injection h with hr hw
    subst hr
    exact Or.inl ⟨show ESP_ERR_INVALID_ARG ≠ ESP_OK by decide, rfl⟩

/-- C11: when the data line reads low within the 200 ms wait, `hx711_set_gain`
with a supported gain `g` performs, after the wait, one whole shift whose
trailing pulses are those of `g` (not of the stored gain), returns success
without passing the sample on, and leaves a handle with the same pins and gain
`g`.  The handle differs from the one before the call only in a return whose
world ends with that completed shift. -/
theorem set_gain_success_commits (fuel : Nat) (env : Env) (d : hx711_t) (g : Nat) (w : World)
    (hg : g ≤ HX711_GAIN_A_64) :
    (∀ w1, hx711_wait fuel env (some d) 200 w = Outcome.ret ESP_OK w1 →
      hx711_set_gain fuel env (some d) g w
          = Outcome.ret (ESP_OK, some { dout := d.dout, pd_sck := d.pd_sck, gain := g })
              (after_shift env d.dout d.pd_sck (g + 1) w1)
      ∧ new_events w1 (after_shift env d.dout d.pd_sck (g + 1) w1)
          = [Event.enter_critical] ++ data_events env d.dout d.pd_sck w1.reads 24
              ++ gain_events d.pd_sck (g + 1) ++ [Event.exit_critical]
      ∧ new_events w (after_shift env d.dout d.pd_sck (g + 1) w1)
          = new_events w w1 ++ shift_events env d.dout d.pd_sck w1.reads (g + 1)
      ∧ clock_high_count d.pd_sck (new_events w (after_shift env d.dout d.pd_sck (g + 1) w1))
          = 24 + g + 1
      ∧ sample_count (shift_events env d.dout d.pd_sck w1.reads (g + 1)) = 24)
    ∧ (∀ r w2, hx711_set_gain fuel env (some d) g w = Outcome.ret r w2 → r.2 ≠ some d →
        r.1 = ESP_OK ∧ r.2 = some { dout := d.dout, pd_sck := d.pd_sck, gain := g }
        ∧ ∃ pre, w2.trace = pre ++ shift_events env d.dout d.pd_sck (w2.reads - 24) (g + 1)) := by
  constructor
  · intro w1 hok
    obtain ⟨_, _, _, _, hpoll⟩ := wait_ret fuel env d 200 w _ w1 hok
    obtain ⟨_, _, _, _, evs, htr, _⟩ := wait_loop_ret env d _ 200 fuel _ _ w1 hok
    have hw1 : w1.trace = w.trace ++ new_events w w1 := by
      have : w1.trace = w.trace
          ++ (Event.gettimeofday (env.timeofday w.clocks).1 (env.timeofday w.clocks).2 :: evs) := by
        rw [htr]; simp [get_time_ms]
      rw [new_events_append w w1 _ this, this]
    have hall : new_events w (after_shift env d.dout d.pd_sck (g + 1) w1)
        = new_events w w1 ++ shift_events env d.dout d.pd_sck w1.reads (g + 1) := by
      apply new_events_append
      simp only [after_shift]
      rw [hw1, List.append_assoc]
    refine ⟨set_gain_ok fuel env d g w w1 hg hok, ?_, hall, ?_,
      sample_count_shift_events _ _ _ _ _⟩
    · exact new_events_append _ _ _ rfl
    · rw [hall]
      unfold clock_high_count
      rw [List.count_append]
      have h0 : List.count (Event.set_level d.pd_sck 1) (new_events w w1) = 0 := by
        rw [List.count_eq_zero]
        intro hmem
        have := hpoll _ hmem
        simp [Event.is_poll] at this
      have h1 := clock_high_count_shift_events env d.dout d.pd_sck w1.reads (g + 1)
      unfold clock_high_count at h1
      rw [h0, h1]
      omega
  · intro r w2 h hne
    rcases set_gain_ret fuel env d g w r w2 h with ⟨_, h2⟩ | ⟨h1, _, h3, w1, _, h5⟩
    · exact absurd h2 hne
    · refine ⟨h1, h3, w1.trace, ?_⟩
      rw [h5]
      simp [after_shift]

/-- Witness for C11: device ready, handle on channel A x128, new gain channel
A x64: success, gain 2 stored, pins kept. -/
theorem set_gain_success_commits_witness :
    hx711_set_gain 5 (env_of (fun _ => 0) 1) (some dev0) HX711_GAIN_A_64 world0
      = Outcome.ret (ESP_OK, some { dout := 4, pd_sck := 5, gain := HX711_GAIN_A_64 })
          (after_shift (env_of (fun _ => 0) 1) 4 5 (HX711_GAIN_A_64 + 1)
            { reads := 1, clocks := 2, dirs := 0, sets := 0,
              trace := [Event.gettimeofday 0 0, Event.gettimeofday 0 1000,
                        Event.get_level 4 0] }) :=
  ((set_gain_success_commits 5 (env_of (fun _ => 0) 1) dev0 HX711_GAIN_A_64 world0
      (Nat.le_refl _)).1 _ (by decide)).1

/-! ## Readiness, initialisation and argument checks -/

/-- C12: on a non-null handle and a non-null output cell `hx711_is_ready`
returns success and stores `true` exactly when its one sample of the data-out
line reads 0, `false` for any other reading; the call consists of that single
sample (no pin write, no delay) and the handle is unchanged. -/
theorem is_ready_reports_low (env : Env) (d : hx711_t) (old : Bool) (w : World) :
    hx711_is_ready env (some d) (some old) w
        = (ESP_OK, some d, some (decide (env.level w.reads = 0)),
           { w with reads := w.reads + 1,
                    trace := w.trace ++ [Event.get_level d.dout (env.level w.reads)] })
    ∧ ((hx711_is_ready env (some d) (some old) w).2.2.1 = some true ↔ env.level w.reads = 0)
    ∧ ((hx711_is_ready env (some d) (some old) w).2.2.1 = some false ↔ env.level w.reads ≠ 0)
    ∧ new_events w (hx711_is_ready env (some d) (some old) w).2.2.2
        = [Event.get_level d.dout (env.level w.reads)]
    ∧ (hx711_is_ready env (some d) (some old) w).2.2.2.sets = w.sets
    ∧ (hx711_is_ready env (some d) (some old) w).2.2.2.clocks = w.clocks := by
  refine ⟨rfl, ?_, ?_, ?_, rfl, rfl⟩
  · simp [hx711_is_ready, gpio_get_level]
  · simp [hx711_is_ready, gpio_get_level]
  · apply new_events_append
    simp [hx711_is_ready, gpio_get_level]

/-- C13: `hx711_init` stops at the first pin call that fails and returns its
status as it is: after a failed data-pin set-up the clock pin is not
configured; after a failed clock-pin set-up the clock level is not driven;
after a failed power-up write there is no delay, no wait and no shift.  In
each case the clock was never driven high and the handle is unchanged.  When
all three succeed the order is data pin to input, clock pin to output, clock
driven to 0, one tick of delay, then `hx711_set_gain` with the stored gain. -/
theorem init_aborts_on_pin_failure (fuel : Nat) (env : Env) (d : hx711_t) (w : World) :
    (env.set_direction_result w.dirs ≠ ESP_OK →
      hx711_init fuel env (some d) w
        = Outcome.ret (env.set_direction_result w.dirs, some d)
            { w with dirs := w.dirs + 1,
                     trace := w.trace
                       ++ [Event.set_direction d.dout gpio_mode_t.GPIO_MODE_INPUT] })
    ∧ (env.set_direction_result w.dirs = ESP_OK →
        env.set_direction_result (w.dirs + 1) ≠ ESP_OK →
        hx711_init fuel env (some d) w
          = Outcome.ret (env.set_direction_result (w.dirs + 1), some d)
              { w with dirs := w.dirs + 2,
                       trace := w.trace
                         ++ [Event.set_direction d.dout gpio_mode_t.GPIO_MODE_INPUT,
                             Event.set_direction d.pd_sck gpio_mode_t.GPIO_MODE_OUTPUT] })
    ∧ (env.set_direction_result w.dirs = ESP_OK →
        env.set_direction_result (w.dirs + 1) = ESP_OK →
        env.set_level_result w.sets ≠ ESP_OK →
        hx711_init fuel env (some d) w
          = Outcome.ret (env.set_level_result w.sets, some d)
              { w with dirs := w.dirs + 2, sets := w.sets + 1,
                       trace := w.trace
                         ++ [Event.set_direction d.dout gpio_mode_t.GPIO_MODE_INPUT,
                             Event.set_direction d.pd_sck gpio_mode_t.GPIO_MODE_OUTPUT,
                             Event.set_level d.pd_sck 0] })
    ∧ (env.set_direction_result w.dirs = ESP_OK →
        env.set_direction_result (w.dirs + 1) = ESP_OK →
        env.set_level_result w.sets = ESP_OK →
        hx711_init fuel env (some d) w
          = hx711_set_gain fuel env (some d) d.gain
              { w with dirs := w.dirs + 2, sets := w.sets + 1,
                       trace := w.trace
                         ++ [Event.set_direction d.dout gpio_mode_t.GPIO_MODE_INPUT,
                             Event.set_direction d.pd_sck gpio_mode_t.GPIO_MODE_OUTPUT,
                             Event.set_level d.pd_sck 0, Event.task_delay 1] })
    ∧ clock_high_count d.pd_sck
        [Event.set_direction d.dout gpio_mode_t.GPIO_MODE_INPUT,
         Event.set_direction d.pd_sck gpio_mode_t.GPIO_MODE_OUTPUT,
         Event.set_level d.pd_sck 0] = 0 := by
  refine ⟨?_, ?_, ?_, ?_, ?_⟩
  · intro h1
    simp only [hx711_init, gpio_set_direction]
    rw [if_pos h1]
  · intro h1 h2
    simp only [hx711_init, gpio_set_direction]
    rw [if_neg (by simpa using h1), if_pos h2]
    simp
  · intro h1 h2 h3
    simp only [hx711_init, gpio_set_direction, hx711_power_down, gpio_set_level]
    rw [if_neg (by simpa using h1), if_neg (by simpa using h2)]
    simp [h3]
  · intro h1 h2 h3
    simp only [hx711_init, gpio_set_direction, hx711_power_down, gpio_set_level, vTaskDelay]
    rw [if_neg (by simpa using h1), if_neg (by simpa using h2)]
    simp [h3]
  · simp [clock_high_count, List.count_cons]

/-- Witness for C13: the second `gpio_set_direction` answers `0x103`; the
call returns `0x103` after the two direction calls, the handle as it was. -/
theorem init_aborts_on_pin_failure_witness :
    hx711_init 5 (env_status (fun k => if k = 1 then 0x103 else ESP_OK) (fun _ => ESP_OK))
        (some dev0) world0
      = Outcome.ret (0x103, some dev0)
          { reads := 0, clocks := 0, dirs := 2, sets := 0,
            trace := [Event.set_direction 4 gpio_mode_t.GPIO_MODE_INPUT,
                      Event.set_direction 5 gpio_mode_t.GPIO_MODE_OUTPUT] } :=
  (init_aborts_on_pin_failure 5
      (env_status (fun k => if k = 1 then 0x103 else ESP_OK) (fun _ => ESP_OK)) dev0 world0).2.1
    (by decide) (by decide)

/-- C14: a null handle, and for `hx711_is_ready` and `hx711_read_data` a null
output pointer, is answered with the invalid-argument error before anything
else happens: the world (trace and counters), the handle and the output cell
are returned as they were. -/
theorem null_arguments_rejected (fuel : Nat) (env : Env) (d : hx711_t) (w : World)
    (g : Nat) (down : Bool) (ready : Option Bool) (data : Option Int) :
    hx711_init fuel env none w = Outcome.ret (ESP_ERR_INVALID_ARG, none) w
    ∧ hx711_power_down env none down w = (ESP_ERR_INVALID_ARG, none, w)
    ∧ hx711_set_gain fuel env none g w = Outcome.ret (ESP_ERR_INVALID_ARG, none) w
    ∧ hx711_is_ready env none ready w = (ESP_ERR_INVALID_ARG, none, ready, w)
    ∧ hx711_is_ready env (some d) none w = (ESP_ERR_INVALID_ARG, some d, none, w)
    ∧ hx711_read_data env none data w = (ESP_ERR_INVALID_ARG, none, data, w)
    ∧ hx711_read_data env (some d) none w = (ESP_ERR_INVALID_ARG, some d, none, w) :=
  ⟨rfl, rfl, rfl, rfl, rfl, rfl, rfl⟩

/-- When its three pin calls succeed, `hx711_init` is its pin set-up followed
by `hx711_set_gain` with the stored gain. -/
theorem init_after_setup (fuel : Nat) (env : Env) (d : hx711_t) (w : World)
    (h1 : env.set_direction_result w.dirs = ESP_OK)
    (h2 : env.set_direction_result (w.dirs + 1) = ESP_OK)
    (h3 : env.set_level_result w.sets = ESP_OK) :
    hx711_init fuel env (some d) w
      = hx711_set_gain fuel env (some d) d.gain
          { w with dirs := w.dirs + 2, sets := w.sets + 1,
                   trace := w.trace ++ init_events d } := by
  simp only [hx711_init, gpio_set_direction, hx711_power_down, gpio_set_level, vTaskDelay,
    init_events]
  rw [if_neg (by simpa using h1), if_neg (by simpa using h2)]
  simp [h3]

/-- C15 (what the code does on a null handle): `hx711_wait` has no argument
check.  With timeout 0 it returns the timeout error; with timeout 100 and a
clock that has not yet advanced by 100 ms it reads the clock twice and then
dereferences the null handle.  Neither call returns invalid-argument. -/
theorem wait_null_handle_unchecked :
    hx711_wait 3 (env_of (fun _ => 1) 1) none 0 world0
        = Outcome.ret ESP_ERR_TIMEOUT
            { reads := 0, clocks := 2, dirs := 0, sets := 0,
              trace := [Event.gettimeofday 0 0, Event.gettimeofday 0 1000] }
    ∧ hx711_wait 3 (env_of (fun _ => 1) 1) none 100 world0
        = Outcome.null_deref
            { reads := 0, clocks := 2, dirs := 0, sets := 0,
              trace := [Event.gettimeofday 0 0, Event.gettimeofday 0 1000] }
    ∧ ESP_ERR_TIMEOUT ≠ ESP_ERR_INVALID_ARG := by
  refine ⟨?_, ?_, ?_⟩ <;> decide

/-- C16 fails as stated: on a handle whose stored gain is 3 and with every pin
call succeeding, `hx711_init` returns invalid-argument only after both
direction calls, the clock write and the delay. -/
theorem init_invalid_gain_counterexample :
    hx711_init 5 (env_of (fun _ => 0) 1) (some { dout := 4, pd_sck := 5, gain := 3 }) world0
        = Outcome.ret (ESP_ERR_INVALID_ARG, some { dout := 4, pd_sck := 5, gain := 3 })
            { reads := 0, clocks := 0, dirs := 2, sets := 1,
              trace := [Event.set_direction 4 gpio_mode_t.GPIO_MODE_INPUT,
                        Event.set_direction 5 gpio_mode_t.GPIO_MODE_OUTPUT,
                        Event.set_level 5 0, Event.task_delay 1] } := by
  decide

/-- C16 (as the code behaves): `hx711_init` does not check the stored gain
before acting; the check is made by `hx711_set_gain`, its last step.  For every
handle whose stored gain is above channel A x64: when the three pin calls
succeed, the call returns invalid-argument after the two direction calls, the
write of 0 to the clock pin and one tick of delay; when one of the pin calls
fails, the call returns the status of that pin call and stops there.  In every
case the call returns a status other than success, with the handle unchanged,
after at least the first direction call and some initial part of the pin
set-up, and so before any clock reading, sample of the data line or clock
pulse. -/
theorem init_invalid_gain_after_setup (fuel : Nat) (env : Env) (d : hx711_t) (w : World)
    (hg : HX711_GAIN_A_64 < d.gain) :
    (env.set_direction_result w.dirs = ESP_OK →
      env.set_direction_result (w.dirs + 1) = ESP_OK →
      env.set_level_result w.sets = ESP_OK →
      hx711_init fuel env (some d) w
        = Outcome.ret (ESP_ERR_INVALID_ARG, some d)
            { w with dirs := w.dirs + 2, sets := w.sets + 1,
                     trace := w.trace ++ init_events d })
    ∧ (env.set_direction_result w.dirs ≠ ESP_OK →
        hx711_init fuel env (some d) w
          = Outcome.ret (env.set_direction_result w.dirs, some d)
              { w with dirs := w.dirs + 1,
                       trace := w.trace
                         ++ [Event.set_direction d.dout gpio_mode_t.GPIO_MODE_INPUT] })
    ∧ (env.set_direction_result w.dirs = ESP_OK →
        env.set_direction_result (w.dirs + 1) ≠ ESP_OK →
        hx711_init fuel env (some d) w
          = Outcome.ret (env.set_direction_result (w.dirs + 1), some d)
              { w with dirs := w.dirs + 2,
                       trace := w.trace
                         ++ [Event.set_direction d.dout gpio_mode_t.GPIO_MODE_INPUT,
                             Event.set_direction d.pd_sck gpio_mode_t.GPIO_MODE_OUTPUT] })
    ∧ (env.set_direction_result w.dirs = ESP_OK →
        env.set_direction_result (w.dirs + 1) = ESP_OK →
        env.set_level_result w.sets ≠ ESP_OK →
        hx711_init fuel env (some d) w
          = Outcome.ret (env.set_level_result w.sets, some d)
              { w with dirs := w.dirs + 2, sets := w.sets + 1,
                       trace := w.trace
                         ++ [Event.set_direction d.dout gpio_mode_t.GPIO_MODE_INPUT,
                             Event.set_direction d.pd_sck gpio_mode_t.GPIO_MODE_OUTPUT,
                             Event.set_level d.pd_sck 0] })
    ∧ (∃ e w2 evs, hx711_init fuel env (some d) w = Outcome.ret (e, some d) w2
        ∧ e ≠ ESP_OK
        ∧ w2.trace = w.trace ++ evs ∧ evs ≠ [] ∧ evs <+: init_events d
        ∧ w.dirs + 1 ≤ w2.dirs ∧ w2.reads = w.reads ∧ w2.clocks = w.clocks)
    ∧ clock_high_count d.pd_sck (init_events d) = 0
    ∧ sample_count (init_events d) = 0
    ∧ (∀ sec usec, Event.gettimeofday sec usec ∉ init_events d) := by
  have hall : env.set_direction_result w.dirs = ESP_OK →
      env.set_direction_result (w.dirs + 1) = ESP_OK →
      env.set_level_result w.sets = ESP_OK →
      hx711_init fuel env (some d) w
        = Outcome.ret (ESP_ERR_INVALID_ARG, some d)
            { w with dirs := w.dirs + 2, sets := w.sets + 1,
                     trace := w.trace ++ init_events d } := by
    intro h1 h2 h3
    rw [init_after_setup fuel env d w h1 h2 h3]
    simp only [hx711_set_gain]
    rw [if_pos (by omega)]
  have hf1 : env.set_direction_result w.dirs ≠ ESP_OK →
      hx711_init fuel env (some d) w
        = Outcome.ret (env.set_direction_result w.dirs, some d)
            { w with dirs := w.dirs + 1,
                     trace := w.trace
                       ++ [Event.set_direction d.dout gpio_mode_t.GPIO_MODE_INPUT] } := by
    intro h1
    simp only [hx711_init, gpio_set_direction]
    rw [if_pos h1]
  have hf2 : env.set_direction_result w.dirs = ESP_OK →
      env.set_direction_result (w.dirs + 1) ≠ ESP_OK →
      hx711_init fuel env (some d) w
        = Outcome.ret (env.set_direction_result (w.dirs + 1), some d)
            { w with dirs := w.dirs + 2,
                     trace := w.trace
                       ++ [Event.set_direction d.dout gpio_mode_t.GPIO_MODE_INPUT,
                           Event.set_direction d.pd_sck gpio_mode_t.GPIO_MODE_OUTPUT] } := by
    intro h1 h2
    simp only [hx711_init, gpio_set_direction]
    rw [if_neg (by simpa using h1), if_pos h2]
    simp
  have hf3 : env.set_direction_result w.dirs = ESP_OK →
      env.set_direction_result (w.dirs + 1) = ESP_OK →
      env.set_level_result w.sets ≠ ESP_OK →
      hx711_init fuel env (some d) w
        = Outcome.ret (env.set_level_result w.sets, some d)
            { w with dirs := w.dirs + 2, sets := w.sets + 1,
                     trace := w.trace
                       ++ [Event.set_direction d.dout gpio_mode_t.GPIO_MODE_INPUT,
                           Event.set_direction d.pd_sck gpio_mode_t.GPIO_MODE_OUTPUT,
                           Event.set_level d.pd_sck 0] } := by
    intro h1 h2 h3
    simp only [hx711_init, gpio_set_direction, hx711_power_down, gpio_set_level]
    rw [if_neg (by simpa using h1), if_neg (by simpa using h2)]
    simp [h3]
  refine ⟨hall, hf1, hf2, hf3, ?_, ?_, ?_, ?_⟩
  · by_cases h1 : env.set_direction_result w.dirs = ESP_OK
    · by_cases h2 : env.set_direction_result (w.dirs + 1) = ESP_OK
      · by_cases h3 : env.set_level_result w.sets = ESP_OK
        · exact ⟨_, _, init_events d, hall h1 h2 h3,
            show ESP_ERR_INVALID_ARG ≠ ESP_OK by decide, rfl, by simp [init_events],
            ⟨[], by simp⟩, by simp, rfl, rfl⟩
        · exact ⟨_, _, _, hf3 h1 h2 h3, h3, rfl, by simp,
            ⟨[Event.task_delay 1], by simp [init_events]⟩, by simp, rfl, rfl⟩
      · exact ⟨_, _, _, hf2 h1 h2, h2, rfl, by simp,
          ⟨[Event.set_level d.pd_sck 0, Event.task_delay 1], by simp [init_events]⟩,
          by simp, rfl, rfl⟩
    · exact ⟨_, _, _, hf1 h1, h1, rfl, by simp,
        ⟨[Event.set_direction d.pd_sck gpio_mode_t.GPIO_MODE_OUTPUT,
          Event.set_level d.pd_sck 0, Event.task_delay 1], by simp [init_events]⟩,
        by simp, rfl, rfl⟩
  · simp [clock_high_count, init_events, List.count_cons]
  · simp [sample_count, init_events, List.countP_cons, Event.is_sample]
  · intro sec usec
    simp [init_events]

/-- Witness for C16 (as the code behaves) on a handle whose stored gain is 3:
with every pin call succeeding the answer is invalid-argument after the whole
pin set-up; with the first direction call answering `0x103` the answer is
`0x103` after that one call. -/
theorem init_invalid_gain_after_setup_witness :
    hx711_init 5 (env_of (fun _ => 0) 1) (some { dout := 4, pd_sck := 5, gain := 3 }) world0
        = Outcome.ret (ESP_ERR_INVALID_ARG, some { dout := 4, pd_sck := 5, gain := 3 })
            { world0 with dirs := world0.dirs + 2, sets := world0.sets + 1,
                          trace := world0.trace
                            ++ init_events { dout := 4, pd_sck := 5, gain := 3 } }
    ∧ hx711_init 5 (env_status (fun _ => 0x103) (fun _ => ESP_OK))
          (some { dout := 4, pd_sck := 5, gain := 3 }) world0
        = Outcome.ret (0x103, some { dout := 4, pd_sck := 5, gain := 3 })
            { world0 with dirs := world0.dirs + 1,
                          trace := world0.trace
                            ++ [Event.set_direction 4 gpio_mode_t.GPIO_MODE_INPUT] } :=
  ⟨(init_invalid_gain_after_setup 5 (env_of (fun _ => 0) 1) { dout := 4, pd_sck := 5, gain := 3 }
      world0 (by decide)).1 rfl rfl rfl,
   (init_invalid_gain_after_setup 5 (env_status (fun _ => 0x103) (fun _ => ESP_OK))
      { dout := 4, pd_sck := 5, gain := 3 } world0 (by decide)).2.1 (by decide)⟩

/-- The ways `hx711_init` can go on a non-null handle: a pin call fails and
its status is returned with the handle as it was, or the call continues as
`hx711_set_gain` after the pin set-up. -/
theorem init_cases (fuel : Nat) (env : Env) (d : hx711_t) (w : World) :
    (∃ e w1, e ≠ ESP_OK ∧ hx711_init fuel env (some d) w = Outcome.ret (e, some d) w1)
    ∨ hx711_init fuel env (some d) w
        = hx711_set_gain fuel env (some d) d.gain
            { w with dirs := w.dirs + 2, sets := w.sets + 1,
                     trace := w.trace ++ init_events d } := by
  by_cases h1 : env.set_direction_result w.dirs = ESP_OK
  · by_cases h2 : env.set_direction_result (w.dirs + 1) = ESP_OK
    · by_cases h3 : env.set_level_result w.sets = ESP_OK
      · exact Or.inr (init_after_setup fuel env d w h1 h2 h3)
      · refine Or.inl ⟨env.set_level_result w.sets,
          { w with dirs := w.dirs + 2, sets := w.sets + 1,
                   trace := w.trace
                     ++ [Event.set_direction d.dout gpio_mode_t.GPIO_MODE_INPUT,
                         Event.set_direction d.pd_sck gpio_mode_t.GPIO_MODE_OUTPUT,
                         Event.set_level d.pd_sck 0] }, h3, ?_⟩
        simp only [hx711_init, gpio_set_direction, hx711_power_down, gpio_set_level]
        rw [if_neg (by simpa using h1), if_neg (by simpa using h2)]
        simp [h3]
    · refine Or.inl ⟨env.set_direction_result (w.dirs + 1),
        { w with dirs := w.dirs + 2,
                 trace := w.trace
                   ++ [Event.set_direction d.dout gpio_mode_t.GPIO_MODE_INPUT,
                       Event.set_direction d.pd_sck gpio_mode_t.GPIO_MODE_OUTPUT] }, h2, ?_⟩
      simp only [hx711_init, gpio_set_direction]
      rw [if_neg (by simpa using h1), if_pos h2]
      simp
  · refine Or.inl ⟨env.set_direction_result w.dirs,
      { w with dirs := w.dirs + 1,
               trace := w.trace ++ [Event.set_direction d.dout gpio_mode_t.GPIO_MODE_INPUT] },
      h1, ?_⟩
    simp only [hx711_init, gpio_set_direction]
    rw [if_pos h1]

/-- C18: whatever `hx711_init` returns on a non-null handle (pin failure,
invalid gain, timeout or success), the handle after the call has the data pin,
clock pin and gain it had before.  A success ends with one whole shift whose
trailing pulses are those of that stored gain. -/
theorem init_keeps_handle (fuel : Nat) (env : Env) (d : hx711_t) (w : World)
    (r : esp_err_t × Option hx711_t) (w2 : World)
    (h : hx711_init fuel env (some d) w = Outcome.ret r w2) :
    r.2 = some d
    ∧ (r.1 = ESP_OK →
        d.gain ≤ HX711_GAIN_A_64
        ∧ ∃ w1, w2 = after_shift env d.dout d.pd_sck (d.gain + 1) w1
            ∧ new_events w1 w2
                = [Event.enter_critical] ++ data_events env d.dout d.pd_sck w1.reads 24
                    ++ gain_events d.pd_sck (d.gain + 1) ++ [Event.exit_critical]) := by
  rcases init_cases fuel env d w with ⟨e, w1, he, hret⟩ | hset
  · rw [hret] at h
    injection h with hr hw
    subst hr
    exact ⟨rfl, fun hok => absurd hok he⟩
  · rw [hset] at h
    rcases set_gain_ret fuel env d d.gain _ r w2 h with ⟨h1, h2⟩ | ⟨_, h2, h3, w1, _, h5⟩
    · exact ⟨h2, fun hok => absurd hok h1⟩
    · refine ⟨h3, fun _ => ⟨h2, w1, h5, ?_⟩⟩
      rw [h5]
      exact new_events_append _ _ _ rfl

/-- Witness for C18: on a ready device `hx711_init` succeeds and returns the
handle `dev0` as it was. -/
theorem init_keeps_handle_witness :
    hx711_init 5 (env_of (fun _ => 0) 1) (some dev0) world0
        = Outcome.ret (ESP_OK, some dev0)
            (after_shift (env_of (fun _ => 0) 1) 4 5 1
              { reads := 1, clocks := 2, dirs := 2, sets := 1,
                trace := init_events dev0
                  ++ [Event.gettimeofday 0 0, Event.gettimeofday 0 1000,
                      Event.get_level 4 0] })
    ∧ ((ESP_OK, some dev0) : esp_err_t × Option hx711_t).2 = some dev0 :=
  have hrun : hx711_init 5 (env_of (fun _ => 0) 1) (some dev0) world0
      = Outcome.ret (ESP_OK, some dev0)
          (after_shift (env_of (fun _ => 0) 1) 4 5 1
            { reads := 1, clocks := 2, dirs := 2, sets := 1,
              trace := init_events dev0
                ++ [Event.gettimeofday 0 0, Event.gettimeofday 0 1000,
                    Event.get_level 4 0] }) := by
    rw [init_after_setup 5 (env_of (fun _ => 0) 1) dev0 world0 rfl rfl rfl]
    exact set_gain_ok 5 (env_of (fun _ => 0) 1) dev0 dev0.gain _ _ (by decide) (by decide)
  ⟨hrun, (init_keeps_handle 5 (env_of (fun _ => 0) 1) dev0 world0 _ _ hrun).1⟩

/-! ## The clock waveform of one shift -/

theorem clock_levels_append (pin : Nat) (a b : List Event) :
    clock_levels pin (a ++ b) = clock_levels pin a ++ clock_levels pin b := by
  simp [clock_levels, List.filterMap_append]

theorem clock_levels_data_events (env : Env) (dout pd_sck reads0 n : Nat) :
    clock_levels pd_sck (data_events env dout pd_sck reads0 n)
      = (List.replicate n [1, 0]).flatten := by
  induction n with
  | zero => simp [data_events, clock_levels]
  | succ n ih =>
    rw [data_events_succ, clock_levels_append, ih, List.replicate_succ', List.flatten_append]
    simp [clock_levels, data_pulse_events]

theorem clock_levels_gain_events (pd_sck n : Nat) :
    clock_levels pd_sck (gain_events pd_sck n) = (List.replicate n [1, 0]).flatten := by
  induction n with
  | zero => simp [gain_events, clock_levels]
  | succ n ih =>
    rw [gain_events_succ, clock_levels_append, ih, List.replicate_succ', List.flatten_append]
    simp [clock_levels, gain_pulse_events]

theorem clock_levels_shift_events (env : Env) (dout pd_sck reads0 n : Nat) :
    clock_levels pd_sck (shift_events env dout pd_sck reads0 n)
      = (List.replicate (24 + n) [1, 0]).flatten := by
  unfold shift_events
  rw [clock_levels_append, clock_levels_append, clock_levels_append, clock_levels_data_events,
    clock_levels_gain_events, List.replicate_add, List.flatten_append]
  simp [clock_levels]

/-- Scanning past data pulses: each one samples while the clock is high and
brings the clock back to 0. -/
theorem scan_data_pulses (dout pd_sck : Nat) (lv : Nat → Nat) (l : List Nat)
    (rest : List Event) :
    samples_in_high_phase pd_sck 0 false
        (l.flatMap (fun i => data_pulse_events dout pd_sck (lv i)) ++ rest)
      = samples_in_high_phase pd_sck 0 false rest := by
  induction l with
  | nil => simp
  | cons x xs ih =>
    rw [List.flatMap_cons, List.append_assoc]
    simp only [data_pulse_events] at ih ⊢
    simp only [List.cons_append, List.nil_append, samples_in_high_phase]
    simp [ih]

/-- Scanning past trailing pulses: nothing is sampled in them. -/
theorem scan_gain_pulses (pd_sck n : Nat) (rest : List Event) :
    samples_in_high_phase pd_sck 0 false (gain_events pd_sck n ++ rest)
      = samples_in_high_phase pd_sck 0 false rest := by
  induction n with
  | zero => simp [gain_events]
  | succ n ih =>
    have hc : gain_events pd_sck (n + 1) = gain_pulse_events pd_sck ++ gain_events pd_sck n := by
      simp [gain_events, List.replicate_succ]
    rw [hc, List.append_assoc]
    simp only [gain_pulse_events, List.cons_append, List.nil_append, samples_in_high_phase]
    simp [ih]

theorem scan_shift_events (env : Env) (dout pd_sck reads0 n : Nat) :
    samples_in_high_phase pd_sck 0 false (shift_events env dout pd_sck reads0 n) = true := by
  unfold shift_events data_events
  generalize List.range 24 = l
  have henter : ∀ es, samples_in_high_phase pd_sck 0 false (Event.enter_critical :: es)
      = samples_in_high_phase pd_sck 0 false es := fun es => by
    simp only [samples_in_high_phase]
  rw [List.append_assoc, List.append_assoc, List.singleton_append, henter, scan_data_pulses,
    scan_gain_pulses]
  rfl

/-- A shift writes to no pin but the clock pin. -/
theorem shift_events_writes (env : Env) (dout pd_sck reads0 n pin lvl : Nat)
    (he : Event.set_level pin lvl ∈ shift_events env dout pd_sck reads0 n) : pin = pd_sck := by
  simp only [shift_events, data_events, gain_events, data_pulse_events, gain_pulse_events,
    List.mem_append, List.mem_flatMap, List.mem_flatten, List.mem_replicate, List.mem_cons,
    List.mem_singleton, List.mem_range] at he
  rcases he with ((h | ⟨i, _, h⟩) | ⟨l, ⟨_, rfl⟩, h⟩) | h
  · simp at h
  · simp only [List.not_mem_nil, or_false] at h
    rcases h with h | h | h | h | h <;> simp at h <;> exact h.1
  · simp only [List.mem_cons, List.mem_singleton, List.not_mem_nil, or_false] at h
    rcases h with h | h | h | h <;> simp at h <;> exact h.1
  · simp at h

/-- C17: for a supported gain `g` the levels `read_raw` writes to the clock
pin are the pair 1, 0 repeated `24 + g + 1` times: they alternate starting
high and end on 0.  Every sample is taken after a write of 1 and before the
next write, which is 0, and every pin write of the shift goes to the clock
pin, so a data pin distinct from it is never written. -/
theorem shift_clock_waveform (env : Env) (dout pd_sck g : Nat) (w : World)
    (hg : g ≤ HX711_GAIN_A_64) :
    clock_levels pd_sck (new_events w (read_raw env dout pd_sck g w).2)
        = (List.replicate (24 + g + 1) [1, 0]).flatten
    ∧ (clock_levels pd_sck (new_events w (read_raw env dout pd_sck g w).2)).head? = some 1
    ∧ (clock_levels pd_sck (new_events w (read_raw env dout pd_sck g w).2)).getLast? = some 0
    ∧ samples_in_high_phase pd_sck 0 false (new_events w (read_raw env dout pd_sck g w).2) = true
    ∧ (∀ pin lvl, Event.set_level pin lvl ∈ new_events w (read_raw env dout pd_sck g w).2 →
        pin = pd_sck)
    ∧ (dout ≠ pd_sck →
        ∀ lvl, Event.set_level dout lvl ∉ new_events w (read_raw env dout pd_sck g w).2)
    ∧ 24 + g + 1 ≤ 27 := by
  have hl : clock_levels pd_sck (new_events w (read_raw env dout pd_sck g w).2)
      = (List.replicate (24 + g + 1) [1, 0]).flatten := by
    rw [read_raw_new_events, clock_levels_shift_events]
    rfl
  have hw : ∀ pin lvl, Event.set_level pin lvl ∈ new_events w (read_raw env dout pd_sck g w).2 →
      pin = pd_sck := by
    intro pin lvl he
    rw [read_raw_new_events] at he
    exact shift_events_writes _ _ _ _ _ _ _ he
  refine ⟨hl, ?_, ?_, ?_, hw, ?_, ?_⟩
  · rw [hl, List.replicate_succ]
    simp
  · rw [hl, List.replicate_succ', List.flatten_append]
    simp
  · rw [read_raw_new_events]
    exact scan_shift_events _ _ _ _ _
  · intro hne lvl he
    exact hne (hw dout lvl he)
  · unfold HX711_GAIN_A_64 at hg
    omega

/-- Witness for C17: with channel A x128 the clock pin sees 25 pairs 1, 0. -/
theorem shift_clock_waveform_witness :
    clock_levels 5
        (new_events world0 (read_raw (env_of (fun _ => 1) 1) 4 5 HX711_GAIN_A_128 world0).2)
      = (List.replicate (24 + HX711_GAIN_A_128 + 1) [1, 0]).flatten :=
  (shift_clock_waveform (env_of (fun _ => 1) 1) 4 5 HX711_GAIN_A_128 world0 (by decide)).1

/-! ## Termination of the wait under an advancing clock -/

/-- The poll loop under a clock whose elapsed time `el k` at its `k`-th
reading grows strictly: within `m + 1` readings, where `T ≤ m + el 0`, the loop
returns; it found the data line high `n` times, yielded after each, and then
either read a low level while `el n < T` (success) or saw `T ≤ el n`
(timeout). -/
theorem wait_loop_advancing (env : Env) (d : hx711_t) (s T : Nat) :
    ∀ (fuel : Nat) (el : Nat → Nat) (m : Nat) (wl : World),
      (∀ k, k ≤ m →
        time_ms (env.timeofday (wl.clocks + k)).1 (env.timeofday (wl.clocks + k)).2
          = (s + el k) % 2 ^ 32) →
      (∀ k, k ≤ m → el k < 2 ^ 32) →
      (∀ k, k < m → el k < el (k + 1)) →
      T ≤ m + el 0 → m < fuel →
      ∃ n, n ≤ m ∧ (∀ k, k < n → el k < T ∧ env.level (wl.reads + k) ≠ 0)
        ∧ ((el n < T ∧ env.level (wl.reads + n) = 0
            ∧ hx711_wait_loop env (some d) s T fuel wl
                = Outcome.ret ESP_OK
                    { wl with reads := wl.reads + n + 1, clocks := wl.clocks + n + 1,
                              trace := wl.trace ++ (poll_events env d.dout wl.clocks wl.reads n
                                ++ [Event.gettimeofday (env.timeofday (wl.clocks + n)).1
                                      (env.timeofday (wl.clocks + n)).2,
                                    Event.get_level d.dout 0]) })
          ∨ (T ≤ el n
            ∧ hx711_wait_loop env (some d) s T fuel wl
                = Outcome.ret ESP_ERR_TIMEOUT
                    { wl with reads := wl.reads + n, clocks := wl.clocks + n + 1,
                              trace := wl.trace ++ (poll_events env d.dout wl.clocks wl.reads n
                                ++ [Event.gettimeofday (env.timeofday (wl.clocks + n)).1
                                      (env.timeofday (wl.clocks + n)).2]) })) := by
  intro fuel
  induction fuel with
  | zero =>
    intro el m wl _ _ _ _ hfuel
    omega
  | succ fuel ih =>
    intro el m wl hread hlt hmono hroom hfuel
    have hnow : (get_time_ms env wl).1 = (s + el 0) % 2 ^ 32 := hread 0 (Nat.zero_le _)
    have hiff := wait_cond_iff s (el 0) T (hlt 0 (Nat.zero_le _))
    by_cases hc : el 0 < T
    · have hcond : u32_sub (get_time_ms env wl).1 s < T := by rw [hnow, hiff]; exact hc
      by_cases hl : env.level wl.reads = 0
      · refine ⟨0, Nat.zero_le _, fun k hk => absurd hk (Nat.not_lt_zero k), Or.inl ⟨hc, hl, ?_⟩⟩
        simp only [hx711_wait_loop]
        rw [if_pos hcond, if_pos (show (gpio_get_level env d.dout (get_time_ms env wl).2).1 = 0
          from hl)]
        simp [poll_events, gpio_get_level, get_time_ms, hl]
      · have hm : 1 ≤ m := by omega
        have h01 : el 0 < el 1 := hmono 0 (by omega)
        obtain ⟨n, hn, hhigh, hres⟩ := ih (fun k => el (k + 1)) (m - 1)
          (vTaskDelay 1 (gpio_get_level env d.dout (get_time_ms env wl).2).2)
          (fun k hk => by
            have := hread (k + 1) (by omega)
            simp only [vTaskDelay, gpio_get_level, get_time_ms]
            rw [Nat.add_assoc, Nat.add_comm 1 k]
            exact this)
          (fun k hk => hlt (k + 1) (by omega))
          (fun k hk => hmono (k + 1) (by omega))
          (by simp only [Nat.zero_add]; omega) (by omega)
        have hloop : hx711_wait_loop env (some d) s T (fuel + 1) wl
            = hx711_wait_loop env (some d) s T fuel
                (vTaskDelay 1 (gpio_get_level env d.dout (get_time_ms env wl).2).2) := by
          simp only [hx711_wait_loop]
          rw [if_pos hcond, if_neg (show ¬ (gpio_get_level env d.dout (get_time_ms env wl).2).1 = 0
            from hl)]
        have hhigh2 : ∀ k, k < n + 1 → el k < T ∧ env.level (wl.reads + k) ≠ 0 := by
          intro k hk
          cases k with
          | zero => exact ⟨hc, hl⟩
          | succ k =>
            have := hhigh k (by omega)
            simp only [vTaskDelay, gpio_get_level, get_time_ms] at this
            rw [Nat.add_assoc, Nat.add_comm 1 k] at this
            exact this
        refine ⟨n + 1, by omega, hhigh2, ?_⟩
        rcases hres with ⟨h1, h2, h3⟩ | ⟨h1, h3⟩
        · refine Or.inl ⟨h1, ?_, ?_⟩
          · simp only [vTaskDelay, gpio_get_level, get_time_ms] at h2
            rw [Nat.add_assoc, Nat.add_comm 1 n] at h2
            exact h2
          · rw [hloop, h3]
            simp only [vTaskDelay, gpio_get_level, get_time_ms, poll_events]
            congr 1
            simp only [World.mk.injEq, List.append_assoc, List.cons_append, List.nil_append,
              List.append_cancel_left_eq, true_and]
            refine ⟨by omega, by omega, ?_⟩
            rw [show wl.clocks + 1 + n = wl.clocks + (n + 1) by omega]
        · refine Or.inr ⟨h1, ?_⟩
          rw [hloop, h3]
          simp only [vTaskDelay, gpio_get_level, get_time_ms, poll_events]
          congr 1
          simp only [World.mk.injEq, List.append_assoc, List.cons_append, List.nil_append,
            List.append_cancel_left_eq, true_and]
          refine ⟨by omega, by omega, ?_⟩
          rw [show wl.clocks + 1 + n = wl.clocks + (n + 1) by omega]
    · have hcond : ¬ u32_sub (get_time_ms env wl).1 s < T := by rw [hnow, hiff]; exact hc
      refine ⟨0, Nat.zero_le _, fun k hk => absurd hk (Nat.not_lt_zero k),
        Or.inr ⟨by omega, ?_⟩⟩
      simp only [hx711_wait_loop]
      rw [if_neg hcond]
      simp [poll_events, get_time_ms]

/-- A strictly growing elapsed time is at least the number of readings. -/
theorem elapsed_ge_index (el : Nat → Nat) (T : Nat) (hmono : ∀ k, k < T → el k < el (k + 1)) :
    ∀ k, k ≤ T → k ≤ el k := by
  intro k
  induction k with
  | zero => intro _; exact Nat.zero_le _
  | succ k ih =>
    intro hk
    have h1 := ih (by omega)
    have h2 := hmono k (by omega)
    omega

/-- C19: `hx711_wait` terminates under an advancing clock.  Let `el k` be the
true elapsed time at the `k`-th reading of the loop, below `2^32` and strictly
growing over the first `T + 1` readings.  Then with fuel above `T` the call
returns: it finds the data line high `n` times, each time with `el k < T`,
yielding one tick after each, while the remaining time `T - el k` strictly
decreases; then it either reads a low level with `el n < T` and returns
success, having sampled at most `T` times, or sees `T ≤ el n` and returns the
timeout error after `n ≤ T` samples. -/
theorem wait_terminates_advancing (fuel : Nat) (env : Env) (d : hx711_t) (T : Nat) (w : World)
    (el : Nat → Nat)
    (hread : ∀ k, k ≤ T →
      time_ms (env.timeofday (w.clocks + 1 + k)).1 (env.timeofday (w.clocks + 1 + k)).2
        = (time_ms (env.timeofday w.clocks).1 (env.timeofday w.clocks).2 + el k) % 2 ^ 32)
    (hlt : ∀ k, k ≤ T → el k < 2 ^ 32)
    (hmono : ∀ k, k < T → el k < el (k + 1))
    (hfuel : T < fuel) :
    ∃ n, n ≤ T
      ∧ (∀ k, k < n →
          el k < T ∧ env.level (w.reads + k) ≠ 0 ∧ T - el (k + 1) < T - el k)
      ∧ ((el n < T ∧ env.level (w.reads + n) = 0 ∧ n + 1 ≤ T
          ∧ hx711_wait fuel env (some d) T w
              = Outcome.ret ESP_OK
                  { w with reads := w.reads + n + 1, clocks := w.clocks + n + 2,
                           trace := w.trace
                             ++ ([Event.gettimeofday (env.timeofday w.clocks).1
                                    (env.timeofday w.clocks).2]
                               ++ poll_events env d.dout (w.clocks + 1) w.reads n
                               ++ [Event.gettimeofday (env.timeofday (w.clocks + 1 + n)).1
                                     (env.timeofday (w.clocks + 1 + n)).2,
                                   Event.get_level d.dout 0]) })
        ∨ (T ≤ el n
          ∧ hx711_wait fuel env (some d) T w
              = Outcome.ret ESP_ERR_TIMEOUT
                  { w with reads := w.reads + n, clocks := w.clocks + n + 2,
                           trace := w.trace
                             ++ ([Event.gettimeofday (env.timeofday w.clocks).1
                                    (env.timeofday w.clocks).2]
                               ++ poll_events env d.dout (w.clocks + 1) w.reads n
                               ++ [Event.gettimeofday (env.timeofday (w.clocks + 1 + n)).1
                                     (env.timeofday (w.clocks + 1 + n)).2]) })) := by
  obtain ⟨n, hn, hhigh, hres⟩ := wait_loop_advancing env d
    (time_ms (env.timeofday w.clocks).1 (env.timeofday w.clocks).2) T fuel el T
    (get_time_ms env w).2 hread hlt hmono (by omega) hfuel
  have hge := elapsed_ge_index el T hmono
  refine ⟨n, hn, ?_, ?_⟩
  · intro k hk
    obtain ⟨h1, h2⟩ := hhigh k hk
    have h3 := hmono k (by omega)
    exact ⟨h1, h2, by omega⟩
  · rcases hres with ⟨h1, h2, h3⟩ | ⟨h1, h3⟩
    · have hn2 := hge n hn
      refine Or.inl ⟨h1, h2, by omega, ?_⟩
      simp only [hx711_wait]
      refine h3.trans ?_
      simp only [get_time_ms]
      congr 1
      simp only [World.mk.injEq, List.append_assoc, List.cons_append, List.nil_append,
        List.append_cancel_left_eq, true_and, and_true]
      omega
    · refine Or.inr ⟨h1, ?_⟩
      simp only [hx711_wait]
      refine h3.trans ?_
      simp only [get_time_ms]
      congr 1
      simp only [World.mk.injEq, List.append_assoc, List.cons_append, List.nil_append,
        List.append_cancel_left_eq, true_and, and_true]
      omega

/-- Witness for C19: the clock advances 100 ms per reading, the data line is
high twice and then low, the timeout is 250 ms: the call returns. -/
theorem wait_terminates_advancing_witness :
    ∃ e w2, hx711_wait 251 (env_of (fun k => if k < 2 then 1 else 0) 100) (some dev0) 250 world0
      = Outcome.ret e w2 := by
  obtain ⟨n, _, _, hres⟩ := wait_terminates_advancing 251
    (env_of (fun k => if k < 2 then 1 else 0) 100) dev0 250 world0 (fun k => (k + 1) * 100)
    (fun k _ => by simp only [env_of, time_ms, world0]; omega)
    (fun k hk => by show (k + 1) * 100 < 2 ^ 32; omega)
    (fun k _ => by show (k + 1) * 100 < (k + 1 + 1) * 100; omega)
    (by decide)
  rcases hres with ⟨_, _, _, h⟩ | ⟨_, h⟩
  · exact ⟨_, _, h⟩
  · exact ⟨_, _, h⟩

end HX711
